import Mathlib

/-!
# Verification of the pulse_lib timeline / waveform compiler

Shallow embedding of the pulse timeline data model and algorithms of
`pulse_lib` (files `segments/data_classes/data_pulse.py`,
`segments/segment_pulse.py`, `segments/segment_base.py`,
`qblox/pulsar_uploader.py`, `qblox/linear_interpolation.py`).

Python floats are modelled as exact rationals (`ℚ`); float literals such as
`1e-9` are modelled by the exact rational they denote in the source text.
`np.sin` and the constant `2*np.pi` are transcendental; every function that
needs them takes them as explicit parameters (`sinf : ℚ → ℚ`, `twoPi : ℚ`),
so that all definitions stay computable.  Statements that do not depend on
sine values are quantified over these parameters.  Python exceptions are
modelled with `Except String`.
-/

namespace PulseLib

/-- Time values of `pulse_delta.time`: a finite time in ns or `np.inf`
(used by the source to mark a delta that closes at segment end). -/
inductive PTime where
  | fin (t : ℚ)
  | inf
deriving DecidableEq, Repr

namespace PTime

/-- `np.inf`-aware comparison used for sorting deltas by time
(`self.pulse_deltas.sort(key=lambda p: p.time)`). -/
def ble : PTime → PTime → Bool
  | .fin a, .fin b => a ≤ b
  | .fin _, .inf => true
  | .inf, .fin _ => false
  | .inf, .inf => true

/-- Shifting a time by a finite offset (`shift_time`); `inf + d = inf` in numpy. -/
def shift : PTime → ℚ → PTime
  | .fin t, d => .fin (t + d)
  | .inf, _ => .inf

end PTime

/-- The near-zero threshold `1e-9` of `pulse_delta.is_near_zero` and
`PhaseShift.is_near_zero`, as the exact rational. -/
def eps : ℚ := 1 / 1000000000

/-- `pulse_delta` of data_pulse.py: `{time, step, ramp}`. -/
structure PulseDelta where
  time : PTime
  step : ℚ := 0
  ramp : ℚ := 0
deriving DecidableEq, Repr

namespace PulseDelta

/-- `pulse_delta.__add__`: sum of steps and ramps, keeping the left time. -/
def add (a b : PulseDelta) : PulseDelta :=
  ⟨a.time, a.step + b.step, a.ramp + b.ramp⟩

/-- `pulse_delta.__mul__` with a number. -/
def scale (a : PulseDelta) (c : ℚ) : PulseDelta :=
  ⟨a.time, a.step * c, a.ramp * c⟩

/-- `pulse_delta.is_near_zero`: `|step| < 1e-9 and |ramp| < 1e-9`. -/
def isNearZero (a : PulseDelta) : Prop :=
  |a.step| < eps ∧ |a.ramp| < eps

instance (a : PulseDelta) : Decidable a.isNearZero := by
  unfold isNearZero; infer_instance

end PulseDelta

/-- `PhaseShift` of data_pulse.py: `{time, phase_shift, channel_name}`. -/
structure PhaseShiftE where
  time : ℚ
  phase_shift : ℚ
  channel_name : String
deriving DecidableEq, Repr

namespace PhaseShiftE

/-- `PhaseShift.is_near_zero`: `-eps < phase_shift < eps`. -/
def isNearZero (p : PhaseShiftE) : Prop :=
  -eps < p.phase_shift ∧ p.phase_shift < eps

instance (p : PhaseShiftE) : Decidable p.isNearZero := by
  unfold isNearZero; infer_instance

end PhaseShiftE

/-- Modelled from the spec: `IQ_data_single` of
`segments/data_classes/data_IQ.py`, which is not under src/.  The spec's
**MicrowavePulse** is `{start, stop, amplitude, frequency, phase_offset,
envelope?, reference_channel, coherent: bool}`; the constructor-argument
order is taken from the call sites in `segment_pulse.add_sin` and
`linear_interpolation._cut_sines`.  The optional envelope generator also
lives in the missing file; it is kept opaque (`Option Unit`), and the few
rendering paths that would evaluate it report an error instead. -/
structure IQdataSingle where
  start : ℚ
  stop : ℚ
  amplitude : ℚ
  frequency : ℚ
  phase_offset : ℚ
  envelope : Option Unit := none
  ref_channel : Option String := none
  coherent_pulsing : Bool := true
deriving DecidableEq, Repr

/-- Modelled from the spec: `Chirp` of `segments/data_classes/data_IQ.py`
(not under src/): `{start, stop, amplitude, start_frequency,
stop_frequency, phase}` — a linear frequency sweep. -/
structure ChirpE where
  start : ℚ
  stop : ℚ
  amplitude : ℚ
  start_frequency : ℚ
  stop_frequency : ℚ
  phase : ℚ
deriving DecidableEq, Repr

/-- `custom_pulse_element` of data_pulse.py.  The user-supplied sampling
functions `func` (duration, sample_rate, amplitude ↦ data) and `func_v2`
(t, duration, amplitude ↦ data) are carried as function fields. -/
structure CustomPulse where
  start : ℚ
  stop : ℚ
  amplitude : ℚ
  func : Option (ℚ → ℚ → ℚ → List ℚ) := none
  func_v2 : Option (List ℚ → ℚ → ℚ → List ℚ) := none
  scaling : ℚ := 1

/-- `custom_pulse_element.hres_rendering` (`__post_init__`): set iff `func_v2` is given. -/
def CustomPulse.hresRendering (c : CustomPulse) : Bool := c.func_v2.isSome

/-- `np.arange(start, stop, step)` for a positive step. -/
def arange (start stop step : ℚ) : List ℚ :=
  (List.range (Int.toNat ⌈(stop - start) / step⌉)).map (fun i => start + i * step)

/-- `custom_pulse_element.render`. -/
def CustomPulse.render (c : CustomPulse) (sample_rate : ℚ) : Except String (List ℚ) := do
  let duration := c.stop - c.start
  let data ← match c.func with
    | some f => pure (f duration sample_rate c.amplitude)
    | none => match c.func_v2 with
      | some f =>
          let tsample := 1000000000 / sample_rate
          let t := arange 0 duration tsample
          pure (f t duration c.amplitude)
      | none => throw "custom pulse without sampling function"
  return data.map (· * c.scaling)

/-- `custom_pulse_element.render_hres` with an explicit t array
(the only way `_render` calls it). -/
def CustomPulse.renderHres (c : CustomPulse) (t : List ℚ) : Except String (List ℚ) := do
  let duration := c.stop - c.start
  match c.func with
  | some _ => throw "Pulse-lib internal error rendering custom pulse"
  | none => match c.func_v2 with
    | some f => return (f t duration c.amplitude).map (· * c.scaling)
    | none => throw "custom pulse without sampling function"

/-- The state of a `pulse_data` object (data_pulse.py).  The cached
pre-processing arrays (`_times`, `_amplitudes`, ...) are not part of the
state; pre-processing is modelled as the pure function `preProcess`. -/
structure PulseData where
  pulse_deltas : List PulseDelta := []
  MW_pulse_data : List IQdataSingle := []
  custom_pulse_data : List CustomPulse := []
  phase_shifts : List PhaseShiftE := []
  chirp_data : List ChirpE := []
  start_time : ℚ := 0
  end_time : ℚ := 0
  hres : Bool := false
  has_data : Bool := false
  consolidated : Bool := false
  phase_shifts_consolidated : Bool := false
  breaks_processed : Bool := false

/-- A fresh `pulse_data(hres)` object. -/
def PulseData.empty (hres : Bool := false) : PulseData := { hres := hres }

namespace PulseData

/-- `pulse_data.update_end_time`: `if t != np.inf and t > self.end_time`. -/
def updateEndTime (s : PulseData) (t : PTime) : PulseData :=
  match t with
  | .inf => s
  | .fin t => if t > s.end_time then { s with end_time := t } else s

/-- `pulse_data.add_delta`: append unless near zero; always update end time. -/
def addDelta (s : PulseData) (d : PulseDelta) : PulseData :=
  let s1 := if ¬ d.isNearZero then
      { s with pulse_deltas := s.pulse_deltas ++ [d],
               consolidated := false, has_data := true }
    else s
  s1.updateEndTime d.time

/-- `pulse_data.add_MW_data`: append unless the amplitude is exactly 0;
always update end time to the pulse stop. -/
def addMWData (s : PulseData) (mw : IQdataSingle) : PulseData :=
  let s1 := if mw.amplitude ≠ 0 then
      { s with MW_pulse_data := s.MW_pulse_data ++ [mw], has_data := true }
    else s
  s1.updateEndTime (.fin mw.stop)

/-- `pulse_data.add_chirp`. -/
def addChirp (s : PulseData) (c : ChirpE) : PulseData :=
  ({ s with chirp_data := s.chirp_data ++ [c], has_data := true } :
    PulseData).updateEndTime (.fin c.stop)

/-- `pulse_data.add_custom_pulse_data`. -/
def addCustomPulseData (s : PulseData) (c : CustomPulse) : PulseData :=
  ({ s with custom_pulse_data := s.custom_pulse_data ++ [c], has_data := true } :
    PulseData).updateEndTime (.fin c.stop)

/-- `pulse_data.add_phase_shift`: append unless near zero; always update end time. -/
def addPhaseShift (s : PulseData) (p : PhaseShiftE) : PulseData :=
  let s1 := if ¬ p.isNearZero then
      { s with phase_shifts := s.phase_shifts ++ [p],
               phase_shifts_consolidated := false, has_data := true }
    else s
  s1.updateEndTime (.fin p.time)

/-- `pulse_data.total_time` is `end_time`. -/
def totalTime (s : PulseData) : ℚ := s.end_time

/-- `pulse_data.wait`: extend `end_time` only. -/
def wait (s : PulseData) (time : ℚ) : PulseData :=
  { s with end_time := s.end_time + time }

/-- `pulse_data.reset_time`: with `None`, move `start_time` to `total_time`;
otherwise update the end time and move `start_time` to the given time. -/
def resetTime (s : PulseData) (time : Option ℚ) : PulseData :=
  match time with
  | none => { s with start_time := s.totalTime }
  | some t =>
      let s1 := s.updateEndTime (.fin t)
      { s1 with start_time := t }

/-- `pulse_data.add_data` (used by `append` / `segment.add`): shift the other
timeline by the insertion time and concatenate all element lists; the
insertion time is `start_time` for `None` and `end_time` for `-1`. -/
def addData (s : PulseData) (other : PulseData) (time : Option ℚ) : PulseData :=
  let t : ℚ := match time with
    | none => s.start_time
    | some v => if v = -1 then s.end_time else v
  let s1 :=
    if other.has_data then
      { s with
        pulse_deltas := s.pulse_deltas ++
          other.pulse_deltas.map (fun d => { d with time := d.time.shift t }),
        MW_pulse_data := s.MW_pulse_data ++
          other.MW_pulse_data.map (fun m => { m with start := m.start + t, stop := m.stop + t }),
        custom_pulse_data := s.custom_pulse_data ++
          other.custom_pulse_data.map (fun c => { c with start := c.start + t, stop := c.stop + t }),
        phase_shifts := s.phase_shifts ++
          other.phase_shifts.map (fun p => { p with time := p.time + t }),
        chirp_data := s.chirp_data ++
          other.chirp_data.map (fun c => { c with start := c.start + t, stop := c.stop + t }),
        has_data := true, consolidated := false, phase_shifts_consolidated := false }
    else s
  s1.updateEndTime (.fin (t + other.totalTime))

/-- `pulse_data.append`: `add_data(other, time=-1)`. -/
def append (s other : PulseData) : PulseData :=
  s.addData other (some (-1))

/-- One pass of the consolidation scan (`_consolidate`, lines 456-465):
sum runs of deltas sharing a time, drop near-zero results.  The input is
assumed sorted by time (the caller sorts first). -/
def mergeDeltas : List PulseDelta → List PulseDelta
  | [] => []
  | d :: rest => go d rest
where
  go (last : PulseDelta) : List PulseDelta → List PulseDelta
  | [] => if last.isNearZero then [] else [last]
  | d :: rest =>
      if d.time = last.time then go (last.add d) rest
      else if last.isNearZero then go d rest
      else last :: go d rest

/-- The pure list transformation of `_consolidate` (lines 454-467): sort
the deltas ascending by time, then merge equal times and drop near-zero
results in one scan. -/
def consolidateDeltas (l : List PulseDelta) : List PulseDelta :=
  mergeDeltas (l.mergeSort (fun a b => a.time.ble b.time))

/-- `pulse_data._consolidate`: no-op when already consolidated; raise on a
single-delta list; otherwise sort by time, merge equal times, drop near-zero
results, and mark consolidated (clearing the breaks-processed flag). -/
def consolidate (s : PulseData) : Except String PulseData :=
  if s.consolidated then .ok s
  else if s.pulse_deltas.length = 1 then
    .error "Error in pulse data"
  else
    let deltas :=
      if s.pulse_deltas.length > 1 then consolidateDeltas s.pulse_deltas
      else s.pulse_deltas
    .ok { s with pulse_deltas := deltas, consolidated := true,
                 breaks_processed := false }

end PulseData

/-- `iround(value) = math.floor(value + 0.5)` (defined in
`qblox/pulsar_uploader.py`; `segments/utility/rounding.py` is not under
src/ but the spec fixes the same convention: "half-up for point samples"). -/
def iround (v : ℚ) : ℤ := ⌊v + 1/2⌋

/-- Python `int()` applied to a float: truncation toward zero. -/
def intTrunc (q : ℚ) : ℤ := q.num / (q.den : ℤ)

/-- `np.cumsum`. -/
def cumsum (l : List ℚ) : List ℚ := go 0 l
where
  go (acc : ℚ) : List ℚ → List ℚ
  | [] => []
  | x :: xs => (acc + x) :: go (acc + x) xs

/-- `np.dot` on equally long vectors. -/
def dotQ (a b : List ℚ) : ℚ := (List.zipWith (· * ·) a b).sum

/-- The `_pre_process` output arrays (`_times`, `_intervals`,
`_amplitudes`, `_amplitudes_end`, `_ramps` (cumulative), `_samples`,
`_samples2`). -/
structure PreProc where
  times : List ℚ
  intervals : List ℚ
  amplitudes : List ℚ
  amplitudes_end : List ℚ
  ramps : List ℚ
  samples : List ℚ
  samples2 : List ℚ
deriving Repr, DecidableEq

/-- Value of a time entry with `np.inf` replaced by the segment end time.
The source replaces only the last array entry (`if times[-1] == np.inf:
times[-1] = self.end_time`); after consolidation `inf` sorts last and equal
times are merged, so `inf` can only occur as the last entry and mapping
every entry is equivalent. -/
def ptimeVal (e : ℚ) : PTime → ℚ
  | .fin t => t
  | .inf => e

/-- `pulse_data._pre_process` (without the object-level caching): one
forward pass turning sorted consolidated deltas into interval arrays.
`sample_rate = none` models Python `sample_rate=None`. -/
def preProcess (s : PulseData) (sample_rate : Option ℚ) : PreProc :=
  let n := s.pulse_deltas.length
  if n = 0 then ⟨[], [], [], [], [], [], []⟩
  else
    let hresOn := s.hres && sample_rate.isSome
    let rows := s.pulse_deltas.map (fun d =>
      if hresOn then
        let sr := sample_rate.getD 0
        let tsample := 1000000000 / sr
        match d.time with
        | .fin time =>
            let t := (intTrunc (time / tsample) : ℚ) * tsample
            let dt := time - t
            (PTime.fin t, d.step - dt * d.ramp, d.ramp, -dt * d.step + dt * d.ramp)
        | .inf => (PTime.inf, d.step, d.ramp, (0 : ℚ))
      else (d.time, d.step, d.ramp, (0 : ℚ)))
    let times := rows.map (fun r => ptimeVal s.end_time r.1)
    let steps := rows.map (fun r => r.2.1)
    let ramps0 := rows.map (fun r => r.2.2.1)
    let samples := rows.map (fun r => r.2.2.2)
    let intervals := (List.zipWith (· - ·) times.tail times) ++ [0]
    let rampsC := cumsum ramps0
    let ampPre := cumsum (0 :: List.zipWith (· * ·) rampsC.dropLast intervals.dropLast)
    let amplitudes := List.zipWith (· + ·) ampPre (cumsum steps)
    let amplitudes_end := (List.zipWith (· - ·) amplitudes.tail steps.tail) ++ [0]
    ⟨times, intervals, amplitudes, amplitudes_end, rampsC, samples,
     List.replicate n 0⟩

/-- Numpy slice assignment `wvf[pt0:pt1] = f(...)` (nonnegative bounds;
the element at absolute index `i` receives `f (i - pt0)`). -/
def writeSliceSet (wvf : List ℚ) (pt0 pt1 : ℤ) (f : ℤ → ℚ) : List ℚ :=
  wvf.mapIdx (fun i v => if pt0 ≤ (i : ℤ) ∧ (i : ℤ) < pt1 then f ((i : ℤ) - pt0) else v)

/-- Numpy slice addition `wvf[pt0:pt1] += f(...)`. -/
def writeSliceAdd (wvf : List ℚ) (pt0 pt1 : ℤ) (f : ℤ → ℚ) : List ℚ :=
  wvf.mapIdx (fun i v => if pt0 ≤ (i : ℤ) ∧ (i : ℤ) < pt1 then v + f ((i : ℤ) - pt0) else v)

/-- Numpy single-element addition `wvf[idx] += v` (nonnegative index). -/
def addAt (wvf : List ℚ) (idx : ℤ) (v : ℚ) : List ℚ :=
  wvf.mapIdx (fun i x => if (i : ℤ) = idx then x + v else x)

/-- The baseband fill loop of `_render` (lines 703-710): for each
consolidated interval write either a constant or
`np.linspace(a, e, pt1-pt0+1)[:-1]`, whose sample `j` is
`a + (e-a)*j/(pt1-pt0)`. -/
def fillIntervals (wvf : List ℚ) : List ℤ → List ℚ → List ℚ → List ℚ → List ℚ
  | pt0 :: pt1 :: pts, r :: rs, a :: amps, e :: ends =>
      let w :=
        if pt0 ≠ pt1 then
          if r ≠ 0 then
            writeSliceSet wvf pt0 pt1 (fun j => a + (e - a) * j / ((pt1 - pt0 : ℤ) : ℚ))
          else
            writeSliceSet wvf pt0 pt1 (fun _ => a)
        else wvf
      fillIntervals w (pt1 :: pts) rs amps ends
  | _, _, _, _ => wvf

/-- The hres correction loop of `_render` (lines 712-717):
`wvf[pt0] += samples[i]` and, when in range, `wvf[pt0+1] += samples2[i]`. -/
def hresCorr (wvf : List ℚ) (rows : List (ℤ × ℚ × ℚ)) (tTotPt : ℕ) : List ℚ :=
  rows.foldl (fun w r =>
    let w1 := addAt w r.1 r.2.1
    if r.1 + 1 < (tTotPt : ℤ) then addAt w1 (r.1 + 1) r.2.2 else w1) wvf

/-- `if LO: freq -= LO` — Python treats both `None` and `0.0` as false. -/
def applyLO (LO : Option ℚ) (freq : ℚ) : ℚ :=
  match LO with
  | some l => if l = 0 then freq else freq - l
  | none => freq

/-- The coherent-pulsing reference state passed into `_render`
(`ref_channel_states`): a common start time and per-channel start phases. -/
structure RefChannelStates where
  start_time : ℚ := 0
  start_phase : List (String × ℚ) := []

/-- `mw_pulse.ref_channel in ref_channel_states.start_phase` plus lookup. -/
def lookupPhase (rs : RefChannelStates) (ch : Option String) : Option ℚ :=
  match ch with
  | some name => (rs.start_phase.find? (fun p => p.1 = name)).map (·.2)
  | none => none

/-- One microwave pulse of the `_render` loop (lines 726-822).
`sr` is the sample rate already expressed in GSa/s (samples per ns). -/
def renderMWStep (twoPi : ℚ) (sinf : ℚ → ℚ) (s : PulseData) (sr : ℚ)
    (ref : Option RefChannelStates) (LO : Option ℚ)
    (wvf : List ℚ) (mw : IQdataSingle) : Except String (List ℚ) := do
  let startPulse := mw.start
  let stopPulse := mw.stop
  let amp := mw.amplitude
  let phase := mw.phase_offset
  let w := twoPi * mw.frequency * (1/1000000000) / sr
  if ¬ mw.coherent_pulsing then
    if ¬ s.hres then
      match mw.envelope with
      | some _ => throw "envelope rendering not modelled (data_IQ.py not in src)"
      | none =>
        -- amp_envelope = 1.0, phase_envelope = 0.0 (scalar branch)
        let nPt := intTrunc (((iround stopPulse - iround startPulse : ℤ) : ℚ) * sr)
        let startPt := ⌊startPulse * sr + 1/2⌋
        let stopPt := startPt + nPt
        let tOff := (startPt : ℚ) - startPulse * sr
        return writeSliceAdd wvf startPt stopPt
          (fun j => amp * sinf (w * (tOff + (j : ℚ)) + phase))
    else
      match mw.envelope with
      | some _ => throw "sine pulse on voltage channel with hres timing does not support shaping."
      | none =>
        let startPt := ⌊startPulse * sr + 1/100000⌋
        let stopPt := ⌈stopPulse * sr - 1/100000⌉
        let nPt := stopPt - startPt
        let tOff := (startPt : ℚ) - startPulse * sr
        let fracStart := (startPt : ℚ) + 1 - startPulse * sr
        let fracStop := 1 - (stopPt : ℚ) + stopPulse * sr
        return writeSliceAdd wvf startPt stopPt
          (fun j =>
            (if j = 0 then fracStart else 1) * (if j = nPt - 1 then fracStop else 1) *
              (amp * sinf (w * (tOff + (j : ℚ)) + phase)))
  else
    let freq := applyLO LO mw.frequency
    if |freq| > sr * 1000000000 / 2 then
      throw "Frequency is above Nyquist frequency"
    else
      let (refStartTime, refStartPhase) :=
        match ref with
        | some rs =>
            match lookupPhase rs mw.ref_channel with
            | some p => (rs.start_time, p)
            | none => ((0 : ℚ), (0 : ℚ))
        | none => ((0 : ℚ), (0 : ℚ))
      let phaseShift :=
        match mw.ref_channel with
        | some rc =>
            (s.phase_shifts.filter
              (fun ps => ps.channel_name = rc ∧ ps.time ≤ startPulse)).foldl
              (fun acc ps => acc + ps.phase_shift) 0
        | none => 0
      match mw.envelope with
      | some _ => throw "envelope rendering not modelled (data_IQ.py not in src)"
      | none =>
        -- amp_envelope = 1.0, phase_envelope = 0.0 (scalar branch)
        let nPt := ⌊(stopPulse - startPulse) * sr + 1/2⌋
        let startPt := iround (startPulse * sr)
        let stopPt := startPt + nPt
        let totalPhase := phaseShift + phase + refStartPhase
        return writeSliceAdd wvf startPt stopPt
          (fun j => amp * sinf (w * ((startPt : ℚ) + refStartTime / sr + (j : ℚ)) + totalPhase))

/-- One custom pulse of the `_render` loop (lines 824-843). -/
def renderCustomStep (s : PulseData) (sr : ℚ)
    (wvf : List ℚ) (cp : CustomPulse) : Except String (List ℚ) := do
  if ¬ s.hres ∨ ¬ cp.hresRendering then
    let data ← cp.render (sr * 1000000000)
    let startPt := iround (cp.start * sr)
    return writeSliceAdd wvf startPt (startPt + data.length)
      (fun j => data.getD j.toNat 0)
  else
    let startPt := ⌊cp.start * sr + 1/100000⌋
    let stopPt := ⌈cp.stop * sr - 1/100000⌉
    let tOff := (startPt : ℚ) - cp.start * sr
    let t := (List.range (stopPt - startPt).toNat).map (fun j => tOff + (j : ℚ))
    let data ← cp.renderHres t
    let fracStart := (startPt : ℚ) + 1 - cp.start * sr
    let fracStop := 1 - (stopPt : ℚ) + cp.stop * sr
    let n := data.length
    let data := data.mapIdx (fun j v =>
      (if j = 0 then fracStart else 1) * (if j + 1 = n then fracStop else 1) * v)
    return writeSliceAdd wvf startPt stopPt (fun j => data.getD j.toNat 0)

/-- Modelled from the spec: `Chirp.get_phase_modulation` of `data_IQ.py`
(not under src/): the closed-form phase integral of the linear frequency
sweep beyond the start frequency, sampled at `sr` GSa/s:
`φ(t) = 2π · (f1-f0) · t²/(2·duration) · 1e-9` with `t = j/sr` ns. -/
def chirpPhaseMod (twoPi : ℚ) (c : ChirpE) (duration sr : ℚ) : List ℚ :=
  (List.range (iround (duration * sr)).toNat).map
    (fun j => twoPi * (c.stop_frequency - c.start_frequency) *
      ((j : ℚ) / sr)^2 / (2 * duration) * (1/1000000000))

/-- One chirp of the `_render` loop (lines 845-860). -/
def renderChirpStep (twoPi : ℚ) (sinf : ℚ → ℚ) (sr : ℚ) (LO : Option ℚ)
    (wvf : List ℚ) (c : ChirpE) : Except String (List ℚ) := do
  let freq := applyLO LO c.start_frequency
  if |freq| > sr * 1000000000 / 2 then
    throw "Frequency is above Nyquist frequency"
  else
    let pe := (chirpPhaseMod twoPi c (c.stop - c.start) sr).map (c.phase + ·)
    let startPt := iround (c.start * sr)
    let stopPt := startPt + pe.length
    return writeSliceAdd wvf startPt stopPt
      (fun j => c.amplitude *
        sinf (twoPi * freq / sr * (1/1000000000) * ((startPt : ℚ) + (j : ℚ)) +
          pe.getD j.toNat 0))

/-- The waveform array of `pulse_data._render` before the final trim:
consolidate and pre-process, allocate `iround(total_time ·
sample_rate·1e-9) + 1` zero samples, fill the consolidated baseband
intervals, apply hres corrections, superpose microwave pulses, custom
pulses and chirps. -/
def renderUntrimmed (twoPi : ℚ) (sinf : ℚ → ℚ) (s0 : PulseData) (sample_rate : ℚ)
    (ref : Option RefChannelStates) (LO : Option ℚ) : Except String (List ℚ) := do
  let s ← s0.consolidate
  let pp := preProcess s (some sample_rate)
  let sr := sample_rate * (1/1000000000)
  let tTotPt := (iround (s.totalTime * sr) + 1).toNat
  let wvf0 := List.replicate tTotPt (0 : ℚ)
  let tPt := pp.times.map (fun t => iround (t * sr))
  let wvf1 := fillIntervals wvf0 tPt pp.ramps pp.amplitudes pp.amplitudes_end
  let wvf2 :=
    if s.hres then
      hresCorr wvf1 (tPt.zip (pp.samples.zip pp.samples2)) tTotPt
    else wvf1
  let wvf3 ← s.MW_pulse_data.foldlM (renderMWStep twoPi sinf s sr ref LO) wvf2
  let wvf4 ← s.custom_pulse_data.foldlM (renderCustomStep s sr) wvf3
  s.chirp_data.foldlM (renderChirpStep twoPi sinf sr LO) wvf4

/-- `pulse_data._render`: the untrimmed waveform with the last (boundary)
sample removed — `return wvf[:-1]`. -/
def render (twoPi : ℚ) (sinf : ℚ → ℚ) (s0 : PulseData) (sample_rate : ℚ)
    (ref : Option RefChannelStates) (LO : Option ℚ) : Except String (List ℚ) :=
  (renderUntrimmed twoPi sinf s0 sample_rate ref LO).map List.dropLast

/-- `pulse_data.integrate_waveform`: trapezoid sum over the consolidated
intervals plus the sum of all custom-pulse samples, scaled by `1e-9`
(the result is in mV·s; 1 mV·ns = 1e-9 mV·s). -/
def integrateWaveform (s0 : PulseData) (sample_rate : Option ℚ) :
    Except String ℚ := do
  let s ← s0.consolidate
  let pp := preProcess s sample_rate
  let base :=
    if s.pulse_deltas.length > 0 then
      (1/2) * dotQ (List.zipWith (· + ·) pp.amplitudes.dropLast pp.amplitudes_end.dropLast)
        pp.intervals.dropLast
    else 0
  let sr := match sample_rate with
    | none => (1000000000 : ℚ)
    | some v => v
  let cs ← s.custom_pulse_data.foldlM (fun acc cp => do
      let d ← cp.render sr
      return acc + d.sum) (0 : ℚ)
  return (base + cs) * (1/1000000000)

namespace PulseData

/-- `pulse_data.__add__` with another `pulse_data`: concatenate all element
lists into a fresh object (fresh flags), keep the left start time and
`hres`, take the max end time; when the right side has no data, return the
left side unchanged. -/
def addPD (a b : PulseData) : PulseData :=
  if b.has_data then
    { pulse_deltas := a.pulse_deltas ++ b.pulse_deltas,
      MW_pulse_data := a.MW_pulse_data ++ b.MW_pulse_data,
      phase_shifts := a.phase_shifts ++ b.phase_shifts,
      custom_pulse_data := a.custom_pulse_data ++ b.custom_pulse_data,
      chirp_data := a.chirp_data ++ b.chirp_data,
      start_time := a.start_time,
      end_time := max a.end_time b.end_time,
      hres := a.hres,
      has_data := true }
  else a

/-- `pulse_data.__mul__` with a number: consolidate, then scale the deltas,
microwave amplitudes, custom scalings and chirp amplitudes. -/
def mulPD (a : PulseData) (c : ℚ) : Except String PulseData :=
  if a.has_data then do
    let a1 ← a.consolidate
    return { pulse_deltas := a1.pulse_deltas.map (·.scale c),
             MW_pulse_data := a1.MW_pulse_data.map
               (fun m => { m with amplitude := m.amplitude * c }),
             custom_pulse_data := a1.custom_pulse_data.map
               (fun u => { u with scaling := u.scaling * c }),
             chirp_data := a1.chirp_data.map
               (fun h => { h with amplitude := h.amplitude * c }),
             phase_shifts := a1.phase_shifts,
             end_time := a1.end_time,
             start_time := a1.start_time,
             hres := a1.hres,
             consolidated := a1.consolidated,
             phase_shifts_consolidated := a1.phase_shifts_consolidated,
             has_data := true }
  else return a

/-- `pulse_data.__copy__`: consolidate, then copy every list and flag (the
copy of a data-carrying object is exactly its consolidated state, since
the pre-processing cache is not part of this model); without data only
times and flags are copied onto a fresh object. -/
def copyPD (s : PulseData) : Except String PulseData :=
  if s.has_data then s.consolidate
  else
    .ok { start_time := s.start_time, end_time := s.end_time, hres := s.hres,
          consolidated := s.consolidated,
          phase_shifts_consolidated := s.phase_shifts_consolidated,
          breaks_processed := s.breaks_processed }

end PulseData

/-- A channel with its own timeline and virtual-gate references
`(multiplication_factor, referenced channel)` — the reference kind
exercised by the compositor claim; IQ and marker references are appended
through the same `+` in the source. Acyclic by construction (the spec
treats reference cycles as a configuration error). -/
inductive Channel where
  | node (own : PulseData) (refs : List (ℚ × Channel))

mutual

/-- `segment_base.pulse_data_all`: with no references the channel's own
data; otherwise a copy of the own data plus, for each virtual-gate
reference, the referenced channel's fully composed data scaled by the
multiplication factor. -/
def composeAll : Channel → Except String PulseData
  | .node own refs =>
      match refs with
      | [] => .ok own
      | _ => do composeRefs (← own.copyPD) refs

/-- The fold `self._pulse_data_all = self._pulse_data_all
+ ref_chan.segment.pulse_data_all * ref_chan.multiplication_factor`. -/
def composeRefs (acc : PulseData) : List (ℚ × Channel) → Except String PulseData
  | [] => .ok acc
  | (w, c) :: rest => do
      let sub ← composeAll c
      let scaled ← sub.mulPD w
      composeRefs (acc.addPD scaled) rest

end

namespace PulseData

/-- `segment_pulse.add_block`: two deltas at `start + start_time` and
`stop + start_time` (`np.inf` when `stop == -1`). -/
def addBlock (s : PulseData) (start stop amplitude : ℚ) : PulseData :=
  let s1 := s.addDelta ⟨.fin (start + s.start_time), amplitude, 0⟩
  s1.addDelta ⟨if stop = -1 then .inf else .fin (stop + s1.start_time), -amplitude, 0⟩

/-- `segment_pulse.add_ramp_ss`. -/
def addRampSS (s : PulseData) (start stop start_amplitude stop_amplitude : ℚ)
    (keep_amplitude : Bool := false) : PulseData :=
  if start ≠ stop then
    let ramp := (stop_amplitude - start_amplitude) / (stop - start)
    let s1 := s.addDelta ⟨.fin (start + s.start_time), start_amplitude, ramp⟩
    if keep_amplitude then
      let s2 := s1.addDelta ⟨.fin (stop + s1.start_time), 0, -ramp⟩
      s2.addDelta ⟨.inf, -stop_amplitude, 0⟩
    else
      s1.addDelta ⟨.fin (stop + s1.start_time), -stop_amplitude, -ramp⟩
  else if keep_amplitude then
    let s1 := s.addDelta ⟨.fin (stop + s.start_time), stop_amplitude, 0⟩
    s1.addDelta ⟨.inf, -stop_amplitude, 0⟩
  else
    s.updateEndTime (.fin (stop + s.start_time))

/-- `segment_pulse.add_sin`: an incoherent `IQ_data_single` without
envelope, referencing the segment's own name. -/
def addSin (s : PulseData) (name : String) (start stop amp freq : ℚ)
    (phase_offset : ℚ := 0) : PulseData :=
  s.addMWData
    { start := start + s.start_time, stop := stop + s.start_time,
      amplitude := amp, frequency := freq, phase_offset := phase_offset,
      envelope := none, ref_channel := some name, coherent_pulsing := false }

/-- `segment_pulse.add_custom_pulse`: a `custom_pulse_element` carrying the
user sampling function. -/
def addCustomPulse (s : PulseData) (start stop amplitude : ℚ)
    (f : ℚ → ℚ → ℚ → List ℚ) : PulseData :=
  s.addCustomPulseData
    { start := start + s.start_time, stop := stop + s.start_time,
      amplitude := amplitude, func := some f }

/-- `segment_base.wait`: negative waits raise; otherwise extend the end
time (and optionally reset the local time). -/
def segWait (s : PulseData) (time : ℚ) (reset : Bool := false) :
    Except String PulseData :=
  if time < 0 then .error "Negative wait time is not allowed"
  else
    let s1 := s.wait time
    .ok (if reset then s1.resetTime none else s1)

end PulseData

/-! ## DC compensation (qblox/pulsar_uploader.py) -/

/-- `ChannelInfo` of pulsar_uploader.py (the fields used by the DC
compensation computation). `integral` is the accumulated charge integral
in mV·s as returned by `integrate_waveform`. -/
structure ChannelInfo where
  attenuation : ℚ := 1
  dc_compensation : Bool := false
  dc_compensation_min : ℚ := 0
  dc_compensation_max : ℚ := 0
  integral : ℚ := 0
deriving DecidableEq, Repr

/-- `UploadAggregator.__init__` lines 483-487: compensation limits are
given at AWG output level and converted to device level by the
attenuation; the channel participates in DC compensation iff the converted
minimum is negative and the converted maximum positive. -/
def mkChannelInfo (attenuation limitMin limitMax : ℚ) : ChannelInfo :=
  let cmin := limitMin * attenuation
  let cmax := limitMax * attenuation
  { attenuation := attenuation,
    dc_compensation_min := cmin,
    dc_compensation_max := cmax,
    dc_compensation := decide (cmin < 0) && decide (cmax > 0) }

/-- `UploadAggregator.get_compensation_time`: 0 without compensation;
`-I/max` for `I <= 0`; `-I/min` for `I > 0` (result in seconds). -/
def getCompensationTime (ci : ChannelInfo) : ℚ :=
  if ¬ ci.dc_compensation then 0
  else if ci.integral ≤ 0 then -ci.integral / ci.dc_compensation_max
  else -ci.integral / ci.dc_compensation_min

/-- `UploadAggregator.get_max_compensation_time`: the maximum of
`get_compensation_time` over all channels (0 when there are none). -/
def getMaxCompensationTime (channels : List ChannelInfo) : ℚ :=
  match channels with
  | [] => 0
  | c :: rest => rest.foldl (fun m ci => max m (getCompensationTime ci))
      (getCompensationTime c)

/-- Modelled from the spec: `PulsarConfig.ceil` of
`qblox/pulsar_sequencers.py`, which is not under src/.  The spec fixes
`ceil_to_grid` (§4.3) and "ceil for interval ends" on the hardware grid
(§4.6): round up to the next multiple of the grid step. -/
def gridCeil (grid t : ℚ) : ℚ := ⌈t / grid⌉ * grid

/-- `UploadAggregator._process_segments` lines 534-539: the sequence-wide
DC compensation duration in ns is the grid-ceiling of the maximum
per-channel compensation time converted to ns. -/
def dcCompensationDurationNs (grid : ℚ) (channels : List ChannelInfo) : ℚ :=
  gridCeil grid (getMaxCompensationTime channels * 1000000000)

/-- `UploadAggregator.add_awg_channel` line 649: the DC compensation
voltage in user units (mV): `-integral / compensation_ns * 1e9 /
attenuation`. -/
def compensationVoltage (ci : ChannelInfo) (compensationNs : ℚ) : ℚ :=
  -ci.integral / compensationNs * 1000000000 / ci.attenuation

/-- `UploadAggregator.add_awg_channel` lines 647-654: the compensation
pulse appended for a channel — a flat block of the computed voltage over
the sequence-wide duration, followed by a zero block — or nothing when the
job is not neutralized, the duration is 0, or the channel does not
participate in DC compensation. -/
def compensationPulse (neutralize : Bool) (compensationNs : ℚ)
    (ci : ChannelInfo) : Option (ℚ × ℚ) :=
  if neutralize && decide (compensationNs > 0) && ci.dc_compensation then
    some (compensationVoltage ci compensationNs, compensationNs)
  else none

/-! ## Interpolation planner (qblox/linear_interpolation.py) -/

/-- `InterpolationCompiler._cut_sines` applied to the list of currently
open low-frequency sines: a sine starting after the cut is an internal
error; a sine starting exactly at the cut stays open unchanged; a sine
spanning the cut is broken in two — the original keeps its start and phase
and now stops at `t`, the new pulse spans `[t, stop]` with phase offset
incremented by `2π·frequency·(t-start)·1e-9`; a sine ending at or before
the cut is dropped from the open set.  Returns (pulses after mutation,
new current sines, newly created elements). -/
def cutSines (twoPi : ℚ) (t : ℚ) :
    List IQdataSingle →
    Except String (List IQdataSingle × List IQdataSingle × List IQdataSingle)
  | [] => .ok ([], [], [])
  | pulse :: rest =>
      if pulse.start > t then
        .error "Internal error: elements not sorted"
      else if pulse.start = t then do
        let (m, nc, ne) ← cutSines twoPi t rest
        return (pulse :: m, pulse :: nc, ne)
      else if pulse.stop > t then
        let newPulse : IQdataSingle :=
          { start := t, stop := pulse.stop,
            amplitude := pulse.amplitude,
            frequency := pulse.frequency,
            phase_offset := pulse.phase_offset +
              pulse.frequency * twoPi * (t - pulse.start) * (1/1000000000),
            envelope := none, ref_channel := none, coherent_pulsing := false }
        do
          let (m, nc, ne) ← cutSines twoPi t rest
          return ({ pulse with stop := t } :: m, newPulse :: nc, newPulse :: ne)
      else do
        let (m, nc, ne) ← cutSines twoPi t rest
        return (pulse :: m, nc, ne)

/-! ## Concrete scenario data -/

/-- Scenario A (claim C3): `add_block(0,1000,100)` then
`add_block(1000,2000,-100)` on an empty channel. -/
def pdScenarioA : PulseData :=
  ((PulseData.empty).addBlock 0 1000 100).addBlock 1000 2000 (-100)

/-- Scenario B (claim C8): `add_ramp_ss(0,100,0,100)` on an empty channel. -/
def pdScenarioB : PulseData := (PulseData.empty).addRampSS 0 100 0 100

/-- Scenario C (claim C1): a channel with compensation limits `(-50, 50)`
at attenuation 1 and accumulated integral `+10000` mV·ns (`1e-5` mV·s, the
unit of `integrate_waveform`). -/
def channelScenarioC : ChannelInfo :=
  { mkChannelInfo 1 (-50) 50 with integral := 10000 * (1/1000000000) }

/-- Scenario D (claim C4): channel B holding a constant 40 mV block over
`[0, 100)`. -/
def pdScenarioD_B : PulseData := (PulseData.empty).addBlock 0 100 40

/-- Scenario D (claim C4): channel B as a channel without references. -/
def chanScenarioD_B : Channel := .node pdScenarioD_B []

/-- Scenario D (claim C4): channel A, an empty own timeline with a
virtual-gate reference of weight 0.5 to channel B. -/
def chanScenarioD_A : Channel := .node PulseData.empty [(1/2, chanScenarioD_B)]

/-- A block of 5 mV over `[0, 10.6)` ns: `total_time · rate = 10.6` samples
at 1 GSa/s, separating round-half-up from floor (claim C5). -/
def pdBlockFrac : PulseData := (PulseData.empty).addBlock 0 (53/5) 5

/-- An incoherent sine (`add_sin`) at 800 MHz, above the 500 MHz Nyquist
limit of a 1 GSa/s rendering (claim C7). -/
def pdSinFast : PulseData := (PulseData.empty).addSin "P1" 0 10 50 800000000 0

/-- A coherent microwave pulse at 800 MHz, above the 500 MHz Nyquist limit
of a 1 GSa/s rendering (claim C7 witness). -/
def pdMWFast : PulseData :=
  (PulseData.empty).addMWData
    { start := 0, stop := 10, amplitude := 50, frequency := 800000000,
      phase_offset := 0, envelope := none, ref_channel := some "q1",
      coherent_pulsing := true }

/-- The weak ordering of deltas used for sorting: by time. -/
def deltaLE (a b : PulseDelta) : Prop := a.time.ble b.time = true

/-- The strict ordering satisfied by consolidated delta lists. -/
def deltaLT (a b : PulseDelta) : Prop :=
  a.time.ble b.time = true ∧ a.time ≠ b.time

/-! ## Theorems -/

theorem PTime.ble_refl (a : PTime) : a.ble a = true := by
  cases a <;> simp [PTime.ble]

theorem PTime.ble_trans {a b c : PTime} (h1 : a.ble b = true)
    (h2 : b.ble c = true) : a.ble c = true := by
  cases a <;> cases b <;> cases c <;> simp_all [PTime.ble] <;> linarith

theorem PTime.ble_total (a b : PTime) : (a.ble b || b.ble a) = true := by
  cases a <;> cases b <;> simp [PTime.ble] <;> exact le_total _ _

theorem PTime.ble_antisymm {a b : PTime} (h1 : a.ble b = true)
    (h2 : b.ble a = true) : a = b := by
  cases a <;> cases b <;> simp_all [PTime.ble] <;> linarith

theorem mergeGo_spec (rest : List PulseDelta) : ∀ last : PulseDelta,
    List.Pairwise deltaLE (last :: rest) →
    (∀ d ∈ PulseData.mergeDeltas.go last rest, ¬d.isNearZero ∧ deltaLE last d) ∧
    List.Pairwise deltaLT (PulseData.mergeDeltas.go last rest) := by
  induction rest with
  | nil =>
      intro last _
      constructor
      · intro d hd
        unfold PulseData.mergeDeltas.go at hd
        by_cases hz : last.isNearZero
        · simp [hz] at hd
        · simp [hz] at hd
          subst hd
          exact ⟨hz, PTime.ble_refl _⟩
      · unfold PulseData.mergeDeltas.go
        by_cases hz : last.isNearZero <;> simp [hz]
  | cons d ds ih =>
      intro last h
      have hld : deltaLE last d := (List.pairwise_cons.mp h).1 d (List.mem_cons_self _ _)
      have htail : List.Pairwise deltaLE (d :: ds) := (List.pairwise_cons.mp h).2
      unfold PulseData.mergeDeltas.go
      by_cases ht : d.time = last.time
      · rw [if_pos ht]
        have hmerged : List.Pairwise deltaLE (last.add d :: ds) := by
          refine List.pairwise_cons.mpr ⟨?_, (List.pairwise_cons.mp htail).2⟩
          intro e he
          have : deltaLE last e := (List.pairwise_cons.mp h).1 e (List.mem_cons_of_mem _ he)
          exact this
        obtain ⟨ihm, ihp⟩ := ih (last.add d) hmerged
        refine ⟨?_, ihp⟩
        intro e he
        obtain ⟨hnz, hle⟩ := ihm e he
        exact ⟨hnz, hle⟩
      · by_cases hz : last.isNearZero
        · rw [if_neg ht, if_pos hz]
          obtain ⟨ihm, ihp⟩ := ih d htail
          refine ⟨?_, ihp⟩
          intro e he
          obtain ⟨hnz, hle⟩ := ihm e he
          exact ⟨hnz, PTime.ble_trans hld hle⟩
        · rw [if_neg ht, if_neg hz]
          obtain ⟨ihm, ihp⟩ := ih d htail
          constructor
          · intro e he
            rcases List.mem_cons.mp he with rfl | he2
            · exact ⟨hz, PTime.ble_refl _⟩
            · obtain ⟨hnz, hle⟩ := ihm e he2
              exact ⟨hnz, PTime.ble_trans hld hle⟩
          · refine List.pairwise_cons.mpr ⟨?_, ihp⟩
            intro e he
            obtain ⟨hnz, hde⟩ := ihm e he
            refine ⟨PTime.ble_trans hld hde, ?_⟩
            intro heq
            have hde2 : d.time.ble e.time = true := hde
            rw [← heq] at hde2
            exact ht (PTime.ble_antisymm hde2 hld)

theorem mergeDeltas_spec (l : List PulseDelta) (h : List.Pairwise deltaLE l) :
    (∀ d ∈ PulseData.mergeDeltas l, ¬d.isNearZero) ∧
    List.Pairwise deltaLT (PulseData.mergeDeltas l) := by
  cases l with
  | nil => simp [PulseData.mergeDeltas]
  | cons d ds =>
      have hspec := mergeGo_spec ds d h
      exact ⟨fun e he => (hspec.1 e he).1, hspec.2⟩

theorem mergeGo_fixed (ds : List PulseDelta) : ∀ last : PulseDelta,
    List.Pairwise deltaLT (last :: ds) → (∀ d ∈ last :: ds, ¬d.isNearZero) →
    PulseData.mergeDeltas.go last ds = last :: ds := by
  induction ds with
  | nil =>
      intro last _ hz
      unfold PulseData.mergeDeltas.go
      rw [if_neg (hz last (List.mem_cons_self _ _))]
  | cons d ds ih =>
      intro last h hz
      have hne : d.time ≠ last.time := by
        have := (List.pairwise_cons.mp h).1 d (List.mem_cons_self _ _)
        exact fun he => this.2 he.symm
      unfold PulseData.mergeDeltas.go
      rw [if_neg hne, if_neg (hz last (List.mem_cons_self _ _))]
      rw [ih d (List.pairwise_cons.mp h).2
        (fun e he => hz e (List.mem_cons_of_mem _ he))]

theorem mergeDeltas_fixed (l : List PulseDelta)
    (hs : List.Pairwise deltaLT l) (hz : ∀ d ∈ l, ¬d.isNearZero) :
    PulseData.mergeDeltas l = l := by
  cases l with
  | nil => rfl
  | cons d ds => exact mergeGo_fixed ds d hs hz

theorem deltaTrans : ∀ a b c : PulseDelta, a.time.ble b.time = true →
    b.time.ble c.time = true → a.time.ble c.time = true :=
  fun _ _ _ h1 h2 => PTime.ble_trans h1 h2

theorem deltaTotal : ∀ a b : PulseDelta,
    (a.time.ble b.time || b.time.ble a.time) = true :=
  fun a b => PTime.ble_total a.time b.time

theorem consolidateDeltas_spec (l : List PulseDelta) :
    (∀ d ∈ PulseData.consolidateDeltas l, ¬d.isNearZero) ∧
    List.Pairwise deltaLT (PulseData.consolidateDeltas l) :=
  mergeDeltas_spec _ (List.sorted_mergeSort deltaTrans deltaTotal l)

theorem consolidateDeltas_idem (l : List PulseDelta) :
    PulseData.consolidateDeltas (PulseData.consolidateDeltas l) =
      PulseData.consolidateDeltas l := by
  obtain ⟨hz, hs⟩ := consolidateDeltas_spec l
  have hsort : (PulseData.consolidateDeltas l).mergeSort
      (fun a b => a.time.ble b.time) = PulseData.consolidateDeltas l :=
    List.mergeSort_of_sorted (hs.imp (fun hab => hab.1))
  show PulseData.mergeDeltas ((PulseData.consolidateDeltas l).mergeSort
      (fun a b => a.time.ble b.time)) = PulseData.consolidateDeltas l
  rw [hsort]
  exact mergeDeltas_fixed _ hs hz

/-- **C2** — Consolidation of a channel's pulse-delta list is idempotent:
consolidating an already-consolidated `pulse_data` leaves it unchanged
(`consolidate(consolidate(x)) == consolidate(x)` for every pulse_data
`x`, in the `Except` monad because `_consolidate` can raise), and the
underlying pure transformation — sort ascending by time, merge deltas
sharing a time by summing `step` and `ramp`, drop results with
`|step| < 1e-9` and `|ramp| < 1e-9` — is idempotent on every delta list. -/
theorem claim_C2 :
    (∀ s : PulseData, s.consolidate.bind PulseData.consolidate = s.consolidate)
  ∧ (∀ l : List PulseDelta,
      PulseData.consolidateDeltas (PulseData.consolidateDeltas l) =
        PulseData.consolidateDeltas l) := by
  constructor
  · intro s
    by_cases h : s.consolidated
    · simp [PulseData.consolidate, h, Except.bind]
    · by_cases h2 : s.pulse_deltas.length = 1
      · simp [PulseData.consolidate, h, h2, Except.bind]
      · simp [PulseData.consolidate, h, h2, Except.bind]
  · exact consolidateDeltas_idem

theorem end_time_updateEndTime (s : PulseData) (t : PTime) :
    s.end_time ≤ (s.updateEndTime t).end_time := by
  cases t with
  | inf => exact le_refl _
  | fin q =>
      show s.end_time ≤
        (if q > s.end_time then { s with end_time := q } else s).end_time
      split
      · exact le_of_lt (by assumption)
      · exact le_refl _

theorem updateEndTime_fin_end_time (s : PulseData) (q : ℚ) :
    (s.updateEndTime (.fin q)).end_time = max s.end_time q := by
  show (if q > s.end_time then { s with end_time := q } else s).end_time =
    max s.end_time q
  by_cases h : q > s.end_time
  · rw [if_pos h]
    exact (max_eq_right (le_of_lt h)).symm
  · rw [if_neg h]
    exact (max_eq_left (not_lt.mp h)).symm

theorem updateEndTime_lists (s : PulseData) (t : PTime) :
    (s.updateEndTime t).pulse_deltas = s.pulse_deltas ∧
    (s.updateEndTime t).MW_pulse_data = s.MW_pulse_data ∧
    (s.updateEndTime t).phase_shifts = s.phase_shifts := by
  cases t with
  | inf => exact ⟨rfl, rfl, rfl⟩
  | fin q =>
      show ((if q > s.end_time then { s with end_time := q } else s).pulse_deltas
          = s.pulse_deltas) ∧
        ((if q > s.end_time then { s with end_time := q } else s).MW_pulse_data
          = s.MW_pulse_data) ∧
        ((if q > s.end_time then { s with end_time := q } else s).phase_shifts
          = s.phase_shifts)
      split
      · exact ⟨rfl, rfl, rfl⟩
      · exact ⟨rfl, rfl, rfl⟩

theorem end_time_addDelta (s : PulseData) (d : PulseDelta) :
    s.end_time ≤ (s.addDelta d).end_time := by
  unfold PulseData.addDelta
  dsimp only
  split
  · exact end_time_updateEndTime _ _
  · exact end_time_updateEndTime _ _

theorem end_time_addMWData (s : PulseData) (mw : IQdataSingle) :
    s.end_time ≤ (s.addMWData mw).end_time := by
  unfold PulseData.addMWData
  dsimp only
  split
  · exact end_time_updateEndTime _ _
  · exact end_time_updateEndTime _ _

theorem end_time_addChirp (s : PulseData) (c : ChirpE) :
    s.end_time ≤ (s.addChirp c).end_time :=
  end_time_updateEndTime _ _

theorem end_time_addCustom (s : PulseData) (c : CustomPulse) :
    s.end_time ≤ (s.addCustomPulseData c).end_time :=
  end_time_updateEndTime _ _

theorem end_time_addPhaseShift (s : PulseData) (p : PhaseShiftE) :
    s.end_time ≤ (s.addPhaseShift p).end_time := by
  unfold PulseData.addPhaseShift
  dsimp only
  split
  · exact end_time_updateEndTime _ _
  · exact end_time_updateEndTime _ _

/-- **C9** — A channel's `end_time` is monotonically non-decreasing under
every element-adding or timing operation: `add_block`, `add_ramp_ss`,
`add_sin`, `add_custom_pulse`, `add_phase_shift`, `add_chirp`, `wait`
(which raises on negative durations before touching the data),
`reset_time`, and `add_data`/`append` of another timeline. -/
theorem claim_C9 :
    (∀ (s : PulseData) (start stop amplitude : ℚ),
        s.end_time ≤ (s.addBlock start stop amplitude).end_time)
  ∧ (∀ (s : PulseData) (start stop a0 a1 : ℚ) (keep : Bool),
        s.end_time ≤ (s.addRampSS start stop a0 a1 keep).end_time)
  ∧ (∀ (s : PulseData) (name : String) (start stop amp freq ph : ℚ),
        s.end_time ≤ (s.addSin name start stop amp freq ph).end_time)
  ∧ (∀ (s : PulseData) (start stop amp : ℚ) (f : ℚ → ℚ → ℚ → List ℚ),
        s.end_time ≤ (s.addCustomPulse start stop amp f).end_time)
  ∧ (∀ (s : PulseData) (p : PhaseShiftE),
        s.end_time ≤ (s.addPhaseShift p).end_time)
  ∧ (∀ (s : PulseData) (c : ChirpE), s.end_time ≤ (s.addChirp c).end_time)
  ∧ (∀ (s : PulseData) (t : ℚ) (r : Bool) (s2 : PulseData),
        s.segWait t r = .ok s2 → s.end_time ≤ s2.end_time)
  ∧ (∀ (s : PulseData) (t : Option ℚ), s.end_time ≤ (s.resetTime t).end_time)
  ∧ (∀ (s other : PulseData) (t : Option ℚ),
        s.end_time ≤ (s.addData other t).end_time)
  ∧ (∀ s other : PulseData, s.end_time ≤ (s.append other).end_time) := by
  have hreset : ∀ (s : PulseData) (t : Option ℚ),
      s.end_time ≤ (s.resetTime t).end_time := by
    intro s t
    cases t with
    | none => exact le_refl _
    | some q =>
        unfold PulseData.resetTime
        dsimp only
        exact end_time_updateEndTime _ _
  have hadd : ∀ (s other : PulseData) (t : Option ℚ),
      s.end_time ≤ (s.addData other t).end_time := by
    intro s other t
    unfold PulseData.addData
    dsimp only
    split
    · exact end_time_updateEndTime _ _
    · exact end_time_updateEndTime _ _
  refine ⟨?_, ?_, ?_, ?_, ?_, ?_, ?_, hreset, hadd, ?_⟩
  · intro s start stop amplitude
    exact le_trans (end_time_addDelta _ _) (end_time_addDelta _ _)
  · intro s start stop a0 a1 keep
    unfold PulseData.addRampSS
    split
    · split
      · exact le_trans (end_time_addDelta _ _)
          (le_trans (end_time_addDelta _ _) (end_time_addDelta _ _))
      · exact le_trans (end_time_addDelta _ _) (end_time_addDelta _ _)
    · split
      · exact le_trans (end_time_addDelta _ _) (end_time_addDelta _ _)
      · exact end_time_updateEndTime _ _
  · intro s name start stop amp freq ph
    exact end_time_addMWData _ _
  · intro s start stop amp f
    exact end_time_addCustom _ _
  · exact end_time_addPhaseShift
  · exact end_time_addChirp
  · intro s t r s2 h
    unfold PulseData.segWait at h
    split at h
    · exact absurd h (by simp)
    · have hnn : (0 : ℚ) ≤ t := not_lt.mp (by assumption)
      have hw : s.end_time ≤ (s.wait t).end_time := by
        show s.end_time ≤ s.end_time + t
        linarith
      simp only [Except.ok.injEq] at h
      rw [← h]
      have hbr : (s.wait t).end_time ≤
          (if r then (s.wait t).resetTime none else s.wait t).end_time := by
        split
        · exact hreset _ _
        · exact le_refl _
      exact le_trans hw hbr
  · intro s other
    exact hadd s other (some (-1))

/-- Witness for C9: `wait(5)` on the empty channel succeeds and does not
decrease `end_time`. -/
theorem claim_C9_witness :
    (PulseData.empty).end_time ≤ ((PulseData.empty).wait 5).end_time :=
  claim_C9.2.2.2.2.2.2.1 PulseData.empty 5 false ((PulseData.empty).wait 5) rfl

/-- **C10** — Adding a negligible element — a near-zero delta, a
zero-amplitude microwave pulse, or a near-zero phase shift — leaves the
corresponding element list unchanged, yet still advances `end_time` to the
element's (finite) time or stop time when that is later. -/
theorem claim_C10 :
    (∀ (s : PulseData) (d : PulseDelta) (q : ℚ), d.isNearZero → d.time = .fin q →
        (s.addDelta d).pulse_deltas = s.pulse_deltas ∧
        (s.addDelta d).end_time = max s.end_time q)
  ∧ (∀ (s : PulseData) (mw : IQdataSingle), mw.amplitude = 0 →
        (s.addMWData mw).MW_pulse_data = s.MW_pulse_data ∧
        (s.addMWData mw).end_time = max s.end_time mw.stop)
  ∧ (∀ (s : PulseData) (p : PhaseShiftE), p.isNearZero →
        (s.addPhaseShift p).phase_shifts = s.phase_shifts ∧
        (s.addPhaseShift p).end_time = max s.end_time p.time) := by
  refine ⟨?_, ?_, ?_⟩
  · intro s d q hz ht
    unfold PulseData.addDelta
    dsimp only
    rw [if_neg (by simpa using hz), ht]
    exact ⟨(updateEndTime_lists _ _).1, updateEndTime_fin_end_time _ _⟩
  · intro s mw h0
    unfold PulseData.addMWData
    dsimp only
    rw [if_neg (by simpa using h0)]
    exact ⟨(updateEndTime_lists _ _).2.1, updateEndTime_fin_end_time _ _⟩
  · intro s p hz
    unfold PulseData.addPhaseShift
    dsimp only
    rw [if_neg (by simpa using hz)]
    exact ⟨(updateEndTime_lists _ _).2.2, updateEndTime_fin_end_time _ _⟩

/-- Witness for C10: a `1e-10` step delta at t=7 on the empty channel is
discarded but pushes `end_time` to 7. -/
theorem claim_C10_witness :
    ((PulseData.empty).addDelta ⟨.fin 7, 1/10000000000, 0⟩).pulse_deltas =
        (PulseData.empty).pulse_deltas ∧
    ((PulseData.empty).addDelta ⟨.fin 7, 1/10000000000, 0⟩).end_time =
        max (PulseData.empty).end_time 7 :=
  claim_C10.1 PulseData.empty ⟨.fin 7, 1/10000000000, 0⟩ 7
    (by refine ⟨?_, ?_⟩ <;> · rw [abs_of_nonneg (by norm_num)]; norm_num [eps]) rfl

/-- **C1** — DC compensation: a channel without configured limits (its
`dc_compensation` flag is down) contributes compensation time 0 and
receives no compensation pulse; a compensated channel needs time `-I/max`
when `I ≤ 0` and `-I/min` when `I > 0`; the sequence-wide duration is the
grid-ceiling of the maximum channel time converted to ns; and Scenario C:
limits `(-50, 50)` with integral `+10000` mV·ns gives a 200 ns
compensation pulse at `-50` mV. -/
theorem claim_C1 :
    (∀ ci : ChannelInfo, ci.dc_compensation = false →
        getCompensationTime ci = 0 ∧
        ∀ (neutralize : Bool) (compNs : ℚ),
          compensationPulse neutralize compNs ci = none)
  ∧ (∀ ci : ChannelInfo, ci.dc_compensation = true → ci.integral ≤ 0 →
        getCompensationTime ci = -ci.integral / ci.dc_compensation_max)
  ∧ (∀ ci : ChannelInfo, ci.dc_compensation = true → 0 < ci.integral →
        getCompensationTime ci = -ci.integral / ci.dc_compensation_min)
  ∧ (∀ (grid : ℚ) (channels : List ChannelInfo),
        dcCompensationDurationNs grid channels =
          gridCeil grid (getMaxCompensationTime channels * 1000000000))
  ∧ getCompensationTime channelScenarioC * 1000000000 = 200
  ∧ dcCompensationDurationNs 4 [channelScenarioC] = 200
  ∧ compensationPulse true 200 channelScenarioC = some (-50, 200) := by
  have hc : channelScenarioC.dc_compensation = true := by
    simp [channelScenarioC, mkChannelInfo]
  have ht : getCompensationTime channelScenarioC = 1/5000000 := by
    rw [getCompensationTime, if_neg (by simp [hc])]
    rw [if_neg (by norm_num [channelScenarioC, mkChannelInfo])]
    norm_num [channelScenarioC, mkChannelInfo]
  refine ⟨?_, ?_, ?_, fun _ _ => rfl, ?_, ?_, ?_⟩
  · intro ci h
    refine ⟨by simp [getCompensationTime, h], ?_⟩
    intro neutralize compNs
    simp [compensationPulse, h]
  · intro ci h hle
    simp [getCompensationTime, h, hle]
  · intro ci h hpos
    simp [getCompensationTime, h, not_le.mpr hpos]
  · rw [ht]
    norm_num
  · unfold dcCompensationDurationNs getMaxCompensationTime
    simp only [List.foldl_nil]
    rw [ht]
    unfold gridCeil
    norm_num
  · unfold compensationPulse
    rw [if_pos (by simp [hc])]
    unfold compensationVoltage
    norm_num [channelScenarioC, mkChannelInfo]

/-- Witness for C1: a channel with limits `(0, 0)` does not participate:
time 0 and no pulse. -/
theorem claim_C1_witness :
    getCompensationTime (mkChannelInfo 1 0 0) = 0 ∧
    ∀ (neutralize : Bool) (compNs : ℚ),
      compensationPulse neutralize compNs (mkChannelInfo 1 0 0) = none :=
  claim_C1.1 (mkChannelInfo 1 0 0) (by simp [mkChannelInfo])

theorem length_writeSliceSet (w : List ℚ) (pt0 pt1 : ℤ) (f : ℤ → ℚ) :
    (writeSliceSet w pt0 pt1 f).length = w.length := by
  unfold writeSliceSet
  simp

theorem length_writeSliceAdd (w : List ℚ) (pt0 pt1 : ℤ) (f : ℤ → ℚ) :
    (writeSliceAdd w pt0 pt1 f).length = w.length := by
  unfold writeSliceAdd
  simp

theorem length_addAt (w : List ℚ) (idx : ℤ) (v : ℚ) :
    (addAt w idx v).length = w.length := by
  unfold addAt
  simp

theorem getD_writeSliceSet {w : List ℚ} {i : ℕ} (hi : i < w.length)
    (pt0 pt1 : ℤ) (f : ℤ → ℚ) :
    (writeSliceSet w pt0 pt1 f).getD i 0 =
      if pt0 ≤ (i : ℤ) ∧ (i : ℤ) < pt1 then f ((i : ℤ) - pt0)
      else w.getD i 0 := by
  unfold writeSliceSet
  rw [List.getD_eq_getElem?_getD, List.getElem?_mapIdx,
    List.getElem?_eq_getElem hi]
  simp only [Option.map_some', Option.getD_some]
  rw [List.getD_eq_getElem?_getD, List.getElem?_eq_getElem hi, Option.getD_some]

theorem getD_writeSliceAdd {w : List ℚ} {i : ℕ} (hi : i < w.length)
    (pt0 pt1 : ℤ) (f : ℤ → ℚ) :
    (writeSliceAdd w pt0 pt1 f).getD i 0 =
      if pt0 ≤ (i : ℤ) ∧ (i : ℤ) < pt1 then w.getD i 0 + f ((i : ℤ) - pt0)
      else w.getD i 0 := by
  unfold writeSliceAdd
  rw [List.getD_eq_getElem?_getD, List.getElem?_mapIdx,
    List.getElem?_eq_getElem hi]
  simp only [Option.map_some', Option.getD_some]
  rw [List.getD_eq_getElem?_getD, List.getElem?_eq_getElem hi, Option.getD_some]

theorem getD_replicate0 (n i : ℕ) : (List.replicate n (0 : ℚ)).getD i 0 = 0 := by
  rw [List.getD_eq_getElem?_getD, List.getElem?_replicate]
  split <;> simp

theorem getD_dropLast {α : Type} {l : List α} {i : ℕ} (hi : i < l.length - 1)
    (d : α) : (l.dropLast).getD i d = l.getD i d := by
  rw [List.getD_eq_getElem?_getD, List.getElem?_dropLast, if_pos hi,
    ← List.getD_eq_getElem?_getD]

theorem fillIntervals_cons (wvf : List ℚ) (pt0 pt1 : ℤ) (pts : List ℤ)
    (r : ℚ) (rs : List ℚ) (a : ℚ) (amps : List ℚ) (e : ℚ) (ends : List ℚ) :
    fillIntervals wvf (pt0 :: pt1 :: pts) (r :: rs) (a :: amps) (e :: ends) =
      fillIntervals
        (if pt0 ≠ pt1 then
          if r ≠ 0 then
            writeSliceSet wvf pt0 pt1
              (fun j => a + (e - a) * j / ((pt1 - pt0 : ℤ) : ℚ))
          else writeSliceSet wvf pt0 pt1 (fun _ => a)
        else wvf) (pt1 :: pts) rs amps ends := rfl

theorem fillIntervals_single (wvf : List ℚ) (pt : ℤ) (rs amps ends : List ℚ) :
    fillIntervals wvf [pt] rs amps ends = wvf := by
  cases rs <;> cases amps <;> cases ends <;> rfl

theorem fillIntervals_nil (wvf : List ℚ) (rs amps ends : List ℚ) :
    fillIntervals wvf [] rs amps ends = wvf := by
  cases rs <;> cases amps <;> cases ends <;> rfl

theorem scenarioA_state : pdScenarioA =
    { pulse_deltas := [⟨.fin 0, 100, 0⟩, ⟨.fin 1000, -100, 0⟩,
        ⟨.fin 1000, -100, 0⟩, ⟨.fin 2000, 100, 0⟩],
      end_time := 2000, has_data := true } := by
  unfold pdScenarioA PulseData.addBlock PulseData.addDelta
    PulseData.updateEndTime PulseData.empty
  norm_num [PulseDelta.isNearZero, eps]

theorem scenarioA_consolidate : pdScenarioA.consolidate =
    .ok { pulse_deltas := [⟨.fin 0, 100, 0⟩, ⟨.fin 1000, -200, 0⟩,
            ⟨.fin 2000, 100, 0⟩],
          end_time := 2000, has_data := true, consolidated := true } := by
  rw [scenarioA_state]
  unfold PulseData.consolidate
  norm_num
  unfold PulseData.consolidateDeltas
  rw [List.mergeSort_of_sorted (by
    norm_num [List.pairwise_cons, deltaLE, PTime.ble])]
  norm_num [PulseData.mergeDeltas, PulseData.mergeDeltas.go, PulseDelta.add,
    PulseDelta.isNearZero, eps]

theorem scenarioA_preProcess :
    preProcess
      ({ pulse_deltas := [⟨.fin 0, 100, 0⟩, ⟨.fin 1000, -200, 0⟩,
           ⟨.fin 2000, 100, 0⟩],
         end_time := 2000, has_data := true, consolidated := true } : PulseData)
      (some 1000000000) =
    ⟨[0, 1000, 2000], [1000, 1000, 0], [100, -100, 0], [100, -100, 0],
     [0, 0, 0], [0, 0, 0], [0, 0, 0]⟩ := by
  norm_num [preProcess, ptimeVal, cumsum, cumsum.go, List.zipWith,
    List.replicate]

theorem scenarioA_renderUntrimmed (twoPi : ℚ) (sinf : ℚ → ℚ) :
    renderUntrimmed twoPi sinf pdScenarioA 1000000000 none none =
      .ok (writeSliceSet
            (writeSliceSet (List.replicate 2001 0) 0 1000 (fun _ => 100))
            1000 2000 (fun _ => -100)) := by
  have h1 : (iround ((2000 : ℚ) * (1000000000 * (1/1000000000))) + 1).toNat
      = 2001 := by
    norm_num [iround]
    decide
  have h2 : List.map (fun t : ℚ => iround (t * (1000000000 * (1/1000000000))))
      [0, 1000, 2000] = [0, 1000, 2000] := by
    norm_num [iround]
  have h3 : fillIntervals (List.replicate 2001 0) [0, 1000, 2000] [0, 0, 0]
      [100, -100, 0] [100, -100, 0] =
      writeSliceSet (writeSliceSet (List.replicate 2001 0) 0 1000 (fun _ => 100))
        1000 2000 (fun _ => -100) := by
    rw [fillIntervals_cons, if_pos (by decide : (0 : ℤ) ≠ 1000),
      if_neg (by norm_num : ¬((0 : ℚ) ≠ 0))]
    rw [fillIntervals_cons, if_pos (by decide : (1000 : ℤ) ≠ 2000),
      if_neg (by norm_num : ¬((0 : ℚ) ≠ 0))]
    rw [fillIntervals_single]
  unfold renderUntrimmed
  rw [scenarioA_consolidate]
  simp only [Bind.bind, Except.bind]
  rw [scenarioA_preProcess]
  dsimp only [PulseData.totalTime]
  rw [h1, h2, h3]
  simp only [Bool.false_eq_true, if_false, List.foldlM_nil, pure, Except.pure]

/-- **C3** — Scenario A: `add_block(0,1000,100)` then
`add_block(1000,2000,-100)` on an empty channel renders at 1 GSa/s to a
waveform whose value is `+100` at every sample index in `[0, 1000)` and
`-100` at every sample index in `[1000, 2000)` (and has exactly 2000
samples). -/
theorem claim_C3 (twoPi : ℚ) (sinf : ℚ → ℚ) :
    ∃ w : List ℚ, render twoPi sinf pdScenarioA 1000000000 none none = .ok w ∧
      w.length = 2000 ∧
      (∀ i : ℕ, i < 1000 → w.getD i 0 = 100) ∧
      (∀ i : ℕ, 1000 ≤ i → i < 2000 → w.getD i 0 = -100) := by
  have hlen0 : (List.replicate 2001 (0 : ℚ)).length = 2001 :=
    List.length_replicate 2001 0
  have hlen1 : (writeSliceSet (List.replicate 2001 (0 : ℚ)) 0 1000
      (fun _ => 100)).length = 2001 := by
    rw [length_writeSliceSet, hlen0]
  have hlen2 : (writeSliceSet (writeSliceSet (List.replicate 2001 (0 : ℚ))
      0 1000 (fun _ => 100)) 1000 2000 (fun _ => -100)).length = 2001 := by
    rw [length_writeSliceSet, hlen1]
  refine ⟨(writeSliceSet (writeSliceSet (List.replicate 2001 0) 0 1000
      (fun _ => 100)) 1000 2000 (fun _ => -100)).dropLast, ?_, ?_, ?_, ?_⟩
  · unfold render
    rw [scenarioA_renderUntrimmed twoPi sinf]
    rfl
  · simp only [List.length_dropLast, hlen2]
  · intro i hi
    have hi2 : i < 2001 - 1 := by omega
    rw [getD_dropLast (by rw [hlen2]; exact hi2)]
    rw [getD_writeSliceSet (by rw [hlen1]; omega)]
    rw [if_neg (by omega)]
    rw [getD_writeSliceSet (by rw [hlen0]; omega)]
    rw [if_pos (by omega)]
  · intro i hi1 hi2
    rw [getD_dropLast (by rw [hlen2]; omega)]
    rw [getD_writeSliceSet (by rw [hlen1]; omega)]
    rw [if_pos (by omega)]

/-- Witness for C3: the rendered waveform exists and takes value 100 at
sample 0 and -100 at sample 1999. -/
theorem claim_C3_witness :
    ∃ w : List ℚ, render 0 (fun _ => 0) pdScenarioA 1000000000 none none
        = .ok w ∧ w.getD 0 0 = 100 ∧ w.getD 1999 0 = -100 := by
  obtain ⟨w, hw, _, h100, h200⟩ := claim_C3 0 (fun _ => 0)
  exact ⟨w, hw, h100 0 (by norm_num), h200 1999 (by norm_num) (by norm_num)⟩

theorem scenarioD_B_state : pdScenarioD_B =
    { pulse_deltas := [⟨.fin 0, 40, 0⟩, ⟨.fin 100, -40, 0⟩],
      end_time := 100, has_data := true } := by
  unfold pdScenarioD_B PulseData.addBlock PulseData.addDelta
    PulseData.updateEndTime PulseData.empty
  norm_num [PulseDelta.isNearZero, eps]

theorem composeAll_nil (own : PulseData) : composeAll (.node own []) = .ok own := by
  simp [composeAll]

theorem composeAll_single (own : PulseData) (w : ℚ) (c : Channel) :
    composeAll (.node own [(w, c)]) =
      own.copyPD.bind (fun acc => (composeAll c).bind (fun sub =>
        (sub.mulPD w).bind (fun scaled => .ok (acc.addPD scaled)))) := by
  simp only [composeAll, composeRefs]
  cases own.copyPD with
  | error e => rfl
  | ok acc =>
      cases composeAll c with
      | error e => rfl
      | ok sub =>
          cases sub.mulPD w with
          | error e => rfl
          | ok scaled => rfl

theorem scenarioD_compose : composeAll chanScenarioD_A =
    .ok { pulse_deltas := [⟨.fin 0, 20, 0⟩, ⟨.fin 100, -20, 0⟩],
          end_time := 100, has_data := true } := by
  have hB : composeAll chanScenarioD_B = .ok pdScenarioD_B := by
    unfold chanScenarioD_B
    simp [composeAll]
  have hcons : pdScenarioD_B.consolidate =
      .ok ({ pulse_deltas := [⟨.fin 0, 40, 0⟩, ⟨.fin 100, -40, 0⟩],
             end_time := 100, has_data := true,
             consolidated := true } : PulseData) := by
    rw [scenarioD_B_state]
    unfold PulseData.consolidate
    norm_num
    unfold PulseData.consolidateDeltas
    rw [List.mergeSort_of_sorted (by
      norm_num [List.pairwise_cons, deltaLE, PTime.ble])]
    norm_num [PulseData.mergeDeltas, PulseData.mergeDeltas.go,
      PulseDelta.isNearZero, eps]
  have hmul : pdScenarioD_B.mulPD (1/2) =
      .ok ({ pulse_deltas := [⟨.fin 0, 20, 0⟩, ⟨.fin 100, -20, 0⟩],
             end_time := 100, has_data := true,
             consolidated := true } : PulseData) := by
    unfold PulseData.mulPD
    rw [if_pos (by rw [scenarioD_B_state])]
    rw [hcons]
    simp only [Bind.bind, Except.bind]
    norm_num [PulseDelta.scale, pure, Except.pure]
  have hcopy : (PulseData.empty).copyPD = .ok PulseData.empty := by
    unfold PulseData.copyPD PulseData.empty
    norm_num
  show composeAll (.node PulseData.empty [(1/2, chanScenarioD_B)]) = _
  rw [composeAll_single, hcopy]
  simp only [Except.bind]
  rw [hB]
  dsimp only
  rw [hmul]
  dsimp only
  unfold PulseData.addPD
  norm_num [PulseData.empty]

theorem scenarioD_renderUntrimmed (twoPi : ℚ) (sinf : ℚ → ℚ) :
    renderUntrimmed twoPi sinf
      ({ pulse_deltas := [⟨.fin 0, 20, 0⟩, ⟨.fin 100, -20, 0⟩],
         end_time := 100, has_data := true } : PulseData) 1000000000 none none =
      .ok (writeSliceSet (List.replicate 101 0) 0 100 (fun _ => 20)) := by
  have hcons : ({ pulse_deltas := [⟨.fin 0, 20, 0⟩, ⟨.fin 100, -20, 0⟩],
                  end_time := 100, has_data := true } : PulseData).consolidate =
      .ok ({ pulse_deltas := [⟨.fin 0, 20, 0⟩, ⟨.fin 100, -20, 0⟩],
             end_time := 100, has_data := true,
             consolidated := true } : PulseData) := by
    unfold PulseData.consolidate
    norm_num
    unfold PulseData.consolidateDeltas
    rw [List.mergeSort_of_sorted (by
      norm_num [List.pairwise_cons, deltaLE, PTime.ble])]
    norm_num [PulseData.mergeDeltas, PulseData.mergeDeltas.go,
      PulseDelta.isNearZero, eps]
  have hpp : preProcess
      ({ pulse_deltas := [⟨.fin 0, 20, 0⟩, ⟨.fin 100, -20, 0⟩],
         end_time := 100, has_data := true,
         consolidated := true } : PulseData) (some 1000000000) =
      ⟨[0, 100], [100, 0], [20, 0], [20, 0], [0, 0], [0, 0], [0, 0]⟩ := by
    norm_num [preProcess, ptimeVal, cumsum, cumsum.go, List.zipWith,
      List.replicate]
  have h1 : (iround ((100 : ℚ) * (1000000000 * (1/1000000000))) + 1).toNat
      = 101 := by
    norm_num [iround]
    decide
  have h2 : List.map (fun t : ℚ => iround (t * (1000000000 * (1/1000000000))))
      [0, 100] = [0, 100] := by
    norm_num [iround]
  have h3 : fillIntervals (List.replicate 101 0) [0, 100] [0, 0]
      [20, 0] [20, 0] =
      writeSliceSet (List.replicate 101 0) 0 100 (fun _ => 20) := by
    rw [fillIntervals_cons, if_pos (by decide : (0 : ℤ) ≠ 100),
      if_neg (by norm_num : ¬((0 : ℚ) ≠ 0))]
    rw [fillIntervals_single]
  unfold renderUntrimmed
  rw [hcons]
  simp only [Bind.bind, Except.bind]
  rw [hpp]
  dsimp only [PulseData.totalTime]
  rw [h1, h2, h3]
  simp only [Bool.false_eq_true, if_false, List.foldlM_nil, pure, Except.pure]

/-- **C4** — Virtual-gate composition: a channel without references
composes to its own timeline; with references, the fully composed timeline
is a copy of the own timeline plus, for each virtual-gate reference of
weight `w`, the referenced channel's fully composed timeline multiplied by
`w` and superposed.  Scenario D: channel A (weight 1.0 of its own empty
timeline) with a 0.5-weight reference to channel B holding a 40 mV block
over `[0, 100)` composes and renders (1 GSa/s) to an added `+20` mV at
every sample in `[0, 100)`. -/
theorem claim_C4 (twoPi : ℚ) (sinf : ℚ → ℚ) :
    (∀ own : PulseData, composeAll (.node own []) = .ok own)
  ∧ (∀ (own : PulseData) (w : ℚ) (c : Channel),
      composeAll (.node own [(w, c)]) =
        own.copyPD.bind (fun acc => (composeAll c).bind (fun sub =>
          (sub.mulPD w).bind (fun scaled => .ok (acc.addPD scaled)))))
  ∧ (∃ v : List ℚ,
      (composeAll chanScenarioD_A).bind
          (fun p => render twoPi sinf p 1000000000 none none) = .ok v ∧
        v.length = 100 ∧ ∀ i : ℕ, i < 100 → v.getD i 0 = 20) := by
  refine ⟨composeAll_nil, composeAll_single, ?_⟩
  · refine ⟨(writeSliceSet (List.replicate 101 0) 0 100 (fun _ => 20)).dropLast,
      ?_, ?_, ?_⟩
    · rw [scenarioD_compose]
      simp only [Bind.bind, Except.bind]
      unfold render
      rw [scenarioD_renderUntrimmed twoPi sinf]
      rfl
    · rw [List.length_dropLast, length_writeSliceSet, List.length_replicate]
    · intro i hi
      have hlen : (writeSliceSet (List.replicate 101 (0:ℚ)) 0 100
          (fun _ => 20)).length = 101 := by
        rw [length_writeSliceSet, List.length_replicate]
      rw [getD_dropLast (by rw [hlen]; omega)]
      rw [getD_writeSliceSet (by rw [List.length_replicate]; omega)]
      rw [if_pos (by omega)]

/-- Witness for C4: the composed waveform of Scenario D exists and takes
value 20 at samples 0 and 99. -/
theorem claim_C4_witness :
    ∃ v : List ℚ,
      (composeAll chanScenarioD_A).bind
          (fun p => render 0 (fun _ => 0) p 1000000000 none none) = .ok v ∧
        v.getD 0 0 = 20 ∧ v.getD 99 0 = 20 := by
  obtain ⟨v, hv, _, h20⟩ := (claim_C4 0 (fun _ => 0)).2.2
  exact ⟨v, hv, h20 0 (by norm_num), h20 99 (by norm_num)⟩

theorem scenarioB_state : pdScenarioB =
    { pulse_deltas := [⟨.fin 0, 0, 1⟩, ⟨.fin 100, -100, -1⟩],
      end_time := 100, has_data := true } := by
  unfold pdScenarioB PulseData.addRampSS PulseData.addDelta
    PulseData.updateEndTime PulseData.empty
  norm_num [PulseDelta.isNearZero, eps]

theorem scenarioB_consolidate : pdScenarioB.consolidate =
    .ok ({ pulse_deltas := [⟨.fin 0, 0, 1⟩, ⟨.fin 100, -100, -1⟩],
           end_time := 100, has_data := true,
           consolidated := true } : PulseData) := by
  rw [scenarioB_state]
  unfold PulseData.consolidate
  norm_num
  unfold PulseData.consolidateDeltas
  rw [List.mergeSort_of_sorted (by
    norm_num [List.pairwise_cons, deltaLE, PTime.ble])]
  norm_num [PulseData.mergeDeltas, PulseData.mergeDeltas.go,
    PulseDelta.isNearZero, eps]

theorem scenarioB_preProcess (sample_rate : Option ℚ) :
    preProcess
      ({ pulse_deltas := [⟨.fin 0, 0, 1⟩, ⟨.fin 100, -100, -1⟩],
         end_time := 100, has_data := true,
         consolidated := true } : PulseData) sample_rate =
    ⟨[0, 100], [100, 0], [0, 0], [100, 0], [1, 0], [0, 0], [0, 0]⟩ := by
  norm_num [preProcess, ptimeVal, cumsum, cumsum.go, List.zipWith,
    List.replicate, Bool.false_and]

/-- **C8** — Scenario B: a channel holding only `add_ramp_ss(0,100,0,100)`
integrates to exactly the trapezoid charge 5000 mV·ns — the returned value
is `5000·1e-9` in the mV·s unit of `integrate_waveform` — for every sample
rate passed to the integration (including `None`). -/
theorem claim_C8 (sample_rate : Option ℚ) :
    integrateWaveform pdScenarioB sample_rate = .ok (5000 * (1/1000000000)) := by
  unfold integrateWaveform
  rw [scenarioB_consolidate]
  simp only [Bind.bind, Except.bind]
  rw [scenarioB_preProcess sample_rate]
  dsimp only
  norm_num [dotQ, List.zipWith, List.foldlM_nil, pure, Except.pure]

theorem consolidate_fields {s s1 : PulseData} (h : s.consolidate = .ok s1) :
    s1.MW_pulse_data = s.MW_pulse_data ∧
    s1.custom_pulse_data = s.custom_pulse_data ∧
    s1.chirp_data = s.chirp_data ∧ s1.hres = s.hres ∧
    s1.end_time = s.end_time ∧ s1.phase_shifts = s.phase_shifts := by
  unfold PulseData.consolidate at h
  split at h
  · injection h with h
    subst h
    exact ⟨rfl, rfl, rfl, rfl, rfl, rfl⟩
  · split at h
    · cases h
    · injection h with h
      subst h
      exact ⟨rfl, rfl, rfl, rfl, rfl, rfl⟩

theorem isOk_false_of_error {α : Type} (e : String) :
    (Except.error e : Except String α).isOk = false := rfl

theorem foldlM_isOk_false {α : Type} (f : List ℚ → α → Except String (List ℚ))
    (x : α) (hf : ∀ acc, (f acc x).isOk = false) :
    ∀ (l : List α), x ∈ l → ∀ init, (l.foldlM f init).isOk = false := by
  intro l
  induction l with
  | nil => intro h; cases h
  | cons a as ih =>
      intro hmem init
      rw [List.foldlM_cons]
      cases hfa : f init a with
      | error e => rfl
      | ok w =>
          rcases List.mem_cons.mp hmem with rfl | hmem2
          · have := hf init
            rw [hfa] at this
            cases this
          · simp only [Bind.bind, Except.bind]
            exact ih hmem2 w

theorem isOk_bind_false_left {α β : Type} {x : Except String α}
    (h : x.isOk = false) (f : α → Except String β) :
    (x.bind f).isOk = false := by
  cases x with
  | error e => rfl
  | ok a => cases h

theorem isOk_bind_false_right {α β : Type} (x : Except String α)
    {f : α → Except String β} (h : ∀ a, (f a).isOk = false) :
    (x.bind f).isOk = false := by
  cases x with
  | error e => rfl
  | ok a => exact h a

theorem renderMWStep_coherent_nyquist (twoPi : ℚ) (sinf : ℚ → ℚ)
    (s : PulseData) (sr : ℚ) (ref : Option RefChannelStates) (LO : Option ℚ)
    (wvf : List ℚ) (mw : IQdataSingle) (hcoh : mw.coherent_pulsing = true)
    (hfreq : |applyLO LO mw.frequency| > sr * 1000000000 / 2) :
    (renderMWStep twoPi sinf s sr ref LO wvf mw).isOk = false := by
  unfold renderMWStep
  rw [hcoh]
  simp only [Bool.not_true, Bool.false_eq_true, if_false]
  rw [if_pos hfreq]
  rfl

theorem renderChirpStep_nyquist (twoPi : ℚ) (sinf : ℚ → ℚ) (sr : ℚ)
    (LO : Option ℚ) (wvf : List ℚ) (c : ChirpE)
    (hfreq : |applyLO LO c.start_frequency| > sr * 1000000000 / 2) :
    (renderChirpStep twoPi sinf sr LO wvf c).isOk = false := by
  unfold renderChirpStep
  rw [if_pos hfreq]
  rfl

theorem renderMWStep_noncoherent_ok (twoPi : ℚ) (sinf : ℚ → ℚ)
    (s : PulseData) (sr : ℚ) (ref : Option RefChannelStates) (LO : Option ℚ)
    (wvf : List ℚ) (mw : IQdataSingle) (h1 : mw.coherent_pulsing = false)
    (h2 : s.hres = false) (h3 : mw.envelope = none) :
    ∃ w, renderMWStep twoPi sinf s sr ref LO wvf mw = .ok w := by
  unfold renderMWStep
  rw [h1, h2, h3]
  simp only [Bool.not_false, if_true, Bool.false_eq_true]
  exact ⟨_, rfl⟩

/-- **C7** (amended) — Only coherent microwave pulses and chirps are
Nyquist-checked by `_render`: if any coherent MW pulse's frequency (after
LO subtraction) or any chirp's start frequency (after LO subtraction)
exceeds half the sample rate in absolute value, rendering fails with an
error (fail-fast, never silently downgraded).  Incoherent sine pulses
(`add_sin`) are rendered without any Nyquist check — see the
counterexample. -/
theorem claim_C7 (twoPi : ℚ) (sinf : ℚ → ℚ) (s0 : PulseData) (rate : ℚ)
    (ref : Option RefChannelStates) (lo : Option ℚ)
    (h : (∃ mw ∈ s0.MW_pulse_data, mw.coherent_pulsing = true ∧
            |applyLO lo mw.frequency| > rate / 2)
       ∨ (∃ c ∈ s0.chirp_data, |applyLO lo c.start_frequency| > rate / 2)) :
    (render twoPi sinf s0 rate ref lo).isOk = false := by
  have hsr : (rate * (1/1000000000)) * 1000000000 / 2 = rate / 2 := by ring
  have hmain : (renderUntrimmed twoPi sinf s0 rate ref lo).isOk = false := by
    unfold renderUntrimmed
    cases hcons : s0.consolidate with
    | error e => rfl
    | ok s1 =>
        obtain ⟨hMW, hcustom, hchirp, _, _, _⟩ := consolidate_fields hcons
        simp only [Bind.bind, Except.bind]
        rcases h with ⟨mw, hmem, hcoh, hf⟩ | ⟨c, hmem, hf⟩
        · have hstep : ∀ acc, (renderMWStep twoPi sinf s1
              (rate * (1/1000000000)) ref lo acc mw).isOk = false := by
            intro acc
            exact renderMWStep_coherent_nyquist _ _ _ _ _ _ _ _ hcoh
              (by rw [hsr]; exact hf)
          have hfold := foldlM_isOk_false _ mw hstep s1.MW_pulse_data
            (by rw [hMW]; exact hmem)
          exact isOk_bind_false_left (hfold _) _
        · apply isOk_bind_false_right
          intro w3
          apply isOk_bind_false_right
          intro w4
          have hstep : ∀ acc, (renderChirpStep twoPi sinf
              (rate * (1/1000000000)) lo acc c).isOk = false := by
            intro acc
            exact renderChirpStep_nyquist _ _ _ _ _ _
              (by rw [hsr]; exact hf)
          exact foldlM_isOk_false _ c hstep s1.chirp_data
            (by rw [hchirp]; exact hmem) w4
  unfold render
  cases hru : renderUntrimmed twoPi sinf s0 rate ref lo with
  | error e => rfl
  | ok w =>
      rw [hru] at hmain
      cases hmain

/-- Witness for the amended C7: a coherent 800 MHz pulse errors at
1 GSa/s. -/
theorem claim_C7_witness :
    (render 0 (fun _ => 0) pdMWFast 1000000000 none none).isOk = false := by
  refine claim_C7 0 (fun _ => 0) pdMWFast 1000000000 none none (.inl ?_)
  refine ⟨⟨0, 10, 50, 800000000, 0, none, some "q1", true⟩, ?_, rfl, ?_⟩
  · show _ ∈ pdMWFast.MW_pulse_data
    unfold pdMWFast PulseData.addMWData PulseData.updateEndTime
      PulseData.empty
    norm_num
  · show |applyLO none (800000000 : ℚ)| > 1000000000 / 2
    unfold applyLO
    rw [abs_of_nonneg (by norm_num)]
    norm_num

theorem isOk_map {α β : Type} (g : α → β) (x : Except String α) :
    (x.map g).isOk = x.isOk := by
  cases x <;> rfl

theorem isOk_bind_ok {α β : Type} {x : Except String α} {a : α}
    (hx : x = .ok a) {f : α → Except String β}
    (hf : (f a).isOk = true) : (x.bind f).isOk = true := by
  rw [hx]
  exact hf

theorem foldlM_MW_ok (twoPi : ℚ) (sinf : ℚ → ℚ) (s : PulseData) (sr : ℚ)
    (ref : Option RefChannelStates) (LO : Option ℚ) (h2 : s.hres = false) :
    ∀ (l : List IQdataSingle),
      (∀ mw ∈ l, mw.coherent_pulsing = false ∧ mw.envelope = none) →
    ∀ init, ∃ w,
      (l.foldlM (renderMWStep twoPi sinf s sr ref LO) init) = .ok w := by
  intro l
  induction l with
  | nil => exact fun _ init => ⟨init, rfl⟩
  | cons mw rest ih =>
      intro hl init
      obtain ⟨h1, h3⟩ := hl mw (List.mem_cons_self _ _)
      obtain ⟨w1, hw1⟩ := renderMWStep_noncoherent_ok twoPi sinf s sr ref LO
        init mw h1 h2 h3
      obtain ⟨w2, hw2⟩ := ih (fun m hm => hl m (List.mem_cons_of_mem _ hm)) w1
      refine ⟨w2, ?_⟩
      rw [List.foldlM_cons, hw1]
      simpa using hw2

/-- Counterexample to C7 as stated: an incoherent `add_sin` pulse at
800 MHz — above the 500 MHz Nyquist limit of the 1 GSa/s rendering — is
rendered without error: `_render` checks Nyquist only for coherent pulses
and chirps. -/
theorem claim_C7_counterexample :
    ((800000000 : ℚ)) > 1000000000 / 2 ∧
    (render 0 (fun _ => 0) pdSinFast 1000000000 none none).isOk = true := by
  refine ⟨by norm_num, ?_⟩
  have hcons : pdSinFast.consolidate =
      .ok ({ MW_pulse_data := [⟨0, 10, 50, 800000000, 0, none, some "P1", false⟩],
             end_time := 10, has_data := true,
             consolidated := true } : PulseData) := by
    have hstate : pdSinFast =
        { MW_pulse_data := [⟨0, 10, 50, 800000000, 0, none, some "P1", false⟩],
          end_time := 10, has_data := true } := by
      unfold pdSinFast PulseData.addSin PulseData.addMWData
        PulseData.updateEndTime PulseData.empty
      norm_num
    rw [hstate]
    unfold PulseData.consolidate
    norm_num
  unfold render
  rw [isOk_map]
  unfold renderUntrimmed
  rw [hcons]
  simp only [Bind.bind, Except.bind]
  obtain ⟨w3, hw3⟩ := foldlM_MW_ok 0 (fun _ => 0)
    ({ MW_pulse_data := [⟨0, 10, 50, 800000000, 0, none, some "P1", false⟩],
       end_time := 10, has_data := true, consolidated := true } : PulseData)
    (1000000000 * (1/1000000000)) none none rfl
    [⟨0, 10, 50, 800000000, 0, none, some "P1", false⟩]
    (fun mw hm => by
      rw [List.mem_singleton] at hm
      subst hm
      exact ⟨rfl, rfl⟩) _
  refine isOk_bind_ok hw3 ?_
  dsimp only
  simp only [List.foldlM_nil, pure, Except.pure, Except.bind]
  rfl

theorem fillIntervals_length : ∀ (pts : List ℤ) (wvf : List ℚ)
    (rs amps ends : List ℚ),
    (fillIntervals wvf pts rs amps ends).length = wvf.length := by
  intro pts
  induction pts with
  | nil => intro wvf rs amps ends; rw [fillIntervals_nil]
  | cons pt0 pts ih =>
      intro wvf rs amps ends
      cases pts with
      | nil => rw [fillIntervals_single]
      | cons pt1 pts2 =>
          cases rs with
          | nil => cases amps <;> cases ends <;> rfl
          | cons r rs2 =>
              cases amps with
              | nil => cases ends <;> rfl
              | cons a amps2 =>
                  cases ends with
                  | nil => rfl
                  | cons e ends2 =>
                      rw [fillIntervals_cons, ih]
                      split
                      · split <;> rw [length_writeSliceSet]
                      · rfl

theorem hresCorr_length : ∀ (rows : List (ℤ × ℚ × ℚ)) (wvf : List ℚ) (n : ℕ),
    (hresCorr wvf rows n).length = wvf.length := by
  intro rows
  induction rows with
  | nil => intro wvf n; rfl
  | cons row rows ih =>
      intro wvf n
      unfold hresCorr at ih ⊢
      rw [List.foldl_cons, ih]
      dsimp only
      split <;> simp [length_addAt]

theorem renderMWStep_length {twoPi : ℚ} {sinf : ℚ → ℚ} {s : PulseData}
    {sr : ℚ} {ref : Option RefChannelStates} {LO : Option ℚ} {wvf : List ℚ}
    {mw : IQdataSingle} {w2 : List ℚ}
    (h : renderMWStep twoPi sinf s sr ref LO wvf mw = .ok w2) :
    w2.length = wvf.length := by
  unfold renderMWStep at h
  by_cases hc : mw.coherent_pulsing = true
  · rw [if_neg (by simp [hc])] at h
    dsimp only at h
    by_cases hny : |applyLO LO mw.frequency| > sr * 1000000000 / 2
    · rw [if_pos hny] at h
      cases h
    · rw [if_neg hny] at h
      cases henv : mw.envelope with
      | some u =>
          rw [henv] at h
          dsimp only at h
          cases h
      | none =>
          rw [henv] at h
          dsimp only at h
          simp only [pure, Except.pure, Except.ok.injEq] at h
          rw [← h, length_writeSliceAdd]
  · rw [if_pos (by simp [hc])] at h
    by_cases hh : s.hres = true
    · rw [if_neg (by simp [hh])] at h
      cases henv : mw.envelope with
      | some u =>
          rw [henv] at h
          dsimp only at h
          cases h
      | none =>
          rw [henv] at h
          dsimp only at h
          simp only [pure, Except.pure, Except.ok.injEq] at h
          rw [← h, length_writeSliceAdd]
    · rw [if_pos (by simp [hh])] at h
      cases henv : mw.envelope with
      | some u =>
          rw [henv] at h
          dsimp only at h
          cases h
      | none =>
          rw [henv] at h
          dsimp only at h
          simp only [pure, Except.pure, Except.ok.injEq] at h
          rw [← h, length_writeSliceAdd]

theorem renderCustomStep_length {s : PulseData} {sr : ℚ} {wvf : List ℚ}
    {cp : CustomPulse} {w2 : List ℚ}
    (h : renderCustomStep s sr wvf cp = .ok w2) :
    w2.length = wvf.length := by
  unfold renderCustomStep at h
  split at h
  · simp only [Bind.bind, Except.bind] at h
    split at h
    · cases h
    · simp only [pure, Except.pure, Except.ok.injEq] at h
      rw [← h, length_writeSliceAdd]
  · simp only [Bind.bind, Except.bind] at h
    split at h
    · cases h
    · simp only [pure, Except.pure, Except.ok.injEq] at h
      rw [← h, length_writeSliceAdd]

theorem renderChirpStep_length {twoPi : ℚ} {sinf : ℚ → ℚ} {sr : ℚ}
    {LO : Option ℚ} {wvf : List ℚ} {c : ChirpE} {w2 : List ℚ}
    (h : renderChirpStep twoPi sinf sr LO wvf c = .ok w2) :
    w2.length = wvf.length := by
  unfold renderChirpStep at h
  dsimp only at h
  by_cases hny : |applyLO LO c.start_frequency| > sr * 1000000000 / 2
  · rw [if_pos hny] at h
    cases h
  · rw [if_neg hny] at h
    simp only [pure, Except.pure, Except.ok.injEq] at h
    rw [← h, length_writeSliceAdd]

theorem foldlM_length {α : Type} {f : List ℚ → α → Except String (List ℚ)}
    (hf : ∀ acc x w, f acc x = .ok w → w.length = acc.length) :
    ∀ (l : List α) (init w : List ℚ),
      l.foldlM f init = .ok w → w.length = init.length := by
  intro l
  induction l with
  | nil =>
      intro init w h
      simp only [List.foldlM_nil, pure, Except.pure, Except.ok.injEq] at h
      rw [← h]
  | cons a as ih =>
      intro init w h
      rw [List.foldlM_cons] at h
      cases hfa : f init a with
      | error e =>
          rw [hfa] at h
          cases h
      | ok w1 =>
          rw [hfa] at h
          simp only [Bind.bind, Except.bind] at h
          rw [ih w1 w h, hf init a w1 hfa]

theorem getD_writeSliceSet_out {w : List ℚ} {pt0 pt1 : ℤ} {f : ℤ → ℚ} {i : ℕ}
    (hout : ¬(pt0 ≤ (i : ℤ) ∧ (i : ℤ) < pt1)) :
    (writeSliceSet w pt0 pt1 f).getD i 0 = w.getD i 0 := by
  by_cases hi : i < w.length
  · rw [getD_writeSliceSet hi, if_neg hout]
  · rw [List.getD_eq_getElem?_getD, List.getElem?_eq_none
      (by rw [length_writeSliceSet]; omega)]
    rw [List.getD_eq_getElem?_getD, List.getElem?_eq_none (by omega)]

theorem fillIntervals_getD_high (B : ℤ) : ∀ (pts : List ℤ) (wvf : List ℚ)
    (rs amps ends : List ℚ), (∀ p ∈ pts, p ≤ B) → ∀ (i : ℕ), B ≤ (i : ℤ) →
    (fillIntervals wvf pts rs amps ends).getD i 0 = wvf.getD i 0 := by
  intro pts
  induction pts with
  | nil => intro wvf rs amps ends _ i _; rw [fillIntervals_nil]
  | cons pt0 pts ih =>
      intro wvf rs amps ends hB i hi
      cases pts with
      | nil => rw [fillIntervals_single]
      | cons pt1 pts2 =>
          cases rs with
          | nil => cases amps <;> cases ends <;> rfl
          | cons r rs2 =>
              cases amps with
              | nil => cases ends <;> rfl
              | cons am amps2 =>
                  cases ends with
                  | nil => rfl
                  | cons e ends2 =>
                      rw [fillIntervals_cons]
                      rw [ih _ _ _ _
                        (fun p hp => hB p (List.mem_cons_of_mem _ hp)) i hi]
                      have hpt1 : pt1 ≤ B :=
                        hB pt1 (List.mem_cons_of_mem _ (List.mem_cons_self _ _))
                      split
                      · split <;>
                          exact getD_writeSliceSet_out (by omega)
                      · rfl

theorem mergeGo_time_pred (P : PTime → Prop) :
    ∀ (rest : List PulseDelta) (last : PulseDelta), P last.time →
      (∀ d ∈ rest, P d.time) →
      ∀ d ∈ PulseData.mergeDeltas.go last rest, P d.time := by
  intro rest
  induction rest with
  | nil =>
      intro last hl _ d hd
      unfold PulseData.mergeDeltas.go at hd
      split at hd
      · cases hd
      · rw [List.mem_singleton] at hd
        subst hd
        exact hl
  | cons x xs ih =>
      intro last hl hr d hd
      unfold PulseData.mergeDeltas.go at hd
      split at hd
      · exact ih (last.add x) hl
          (fun e he => hr e (List.mem_cons_of_mem _ he)) d hd
      · split at hd
        · exact ih x (hr x (List.mem_cons_self _ _))
            (fun e he => hr e (List.mem_cons_of_mem _ he)) d hd
        · rcases List.mem_cons.mp hd with rfl | hd2
          · exact hl
          · exact ih x (hr x (List.mem_cons_self _ _))
              (fun e he => hr e (List.mem_cons_of_mem _ he)) d hd2

theorem consolidateDeltas_time_pred (P : PTime → Prop) (l : List PulseDelta)
    (hp : ∀ d ∈ l, P d.time) :
    ∀ d ∈ PulseData.consolidateDeltas l, P d.time := by
  have hsorted : ∀ d ∈ l.mergeSort (fun a b => a.time.ble b.time), P d.time :=
    fun d hd => hp d ((List.mergeSort_perm l _).mem_iff.mp hd)
  unfold PulseData.consolidateDeltas
  cases hms : l.mergeSort (fun a b => a.time.ble b.time) with
  | nil => intro d hd; cases hd
  | cons x xs =>
      rw [hms] at hsorted
      exact mergeGo_time_pred P xs x (hsorted x (List.mem_cons_self _ _))
        (fun e he => hsorted e (List.mem_cons_of_mem _ he))

theorem consolidate_time_pred {s s1 : PulseData} (h : s.consolidate = .ok s1)
    (P : PTime → Prop) (hp : ∀ d ∈ s.pulse_deltas, P d.time) :
    ∀ d ∈ s1.pulse_deltas, P d.time := by
  unfold PulseData.consolidate at h
  split at h
  · injection h with h
    subst h
    exact hp
  · split at h
    · cases h
    · injection h with h
      subst h
      show ∀ d ∈ (if s.pulse_deltas.length > 1 then
          PulseData.consolidateDeltas s.pulse_deltas else s.pulse_deltas),
        P d.time
      split
      · exact consolidateDeltas_time_pred P _ hp
      · exact hp

theorem preProcess_times_le {s : PulseData} (hh : s.hres = false)
    (hb : ∀ d ∈ s.pulse_deltas, ∀ t : ℚ, d.time = .fin t → t ≤ s.end_time)
    (srO : Option ℚ) :
    ∀ x ∈ (preProcess s srO).times, x ≤ s.end_time := by
  intro x hx
  unfold preProcess at hx
  dsimp only at hx
  split at hx
  · cases hx
  · rw [hh] at hx
    simp only [Bool.false_and, Bool.false_eq_true, if_false, List.map_map,
      List.mem_map] at hx
    obtain ⟨d, hd, rfl⟩ := hx
    cases ht : d.time with
    | inf => simp [ptimeVal, Function.comp, ht]
    | fin t =>
        simp only [ptimeVal, Function.comp, ht]
        exact hb d hd t ht

theorem iround_mono {x y : ℚ} (h : x ≤ y) : iround x ≤ iround y :=
  Int.floor_le_floor (by linarith)

theorem iround_nonneg {x : ℚ} (h : 0 ≤ x) : 0 ≤ iround x :=
  Int.le_floor.mpr (by push_cast; linarith)

theorem renderUntrimmed_ok_length {twoPi : ℚ} {sinf : ℚ → ℚ} {s0 : PulseData}
    {rate : ℚ} {ref : Option RefChannelStates} {lo : Option ℚ} {a : List ℚ}
    (h : renderUntrimmed twoPi sinf s0 rate ref lo = .ok a) :
    a.length = (iround (s0.end_time * (rate * (1/1000000000))) + 1).toNat := by
  unfold renderUntrimmed at h
  cases hcons : s0.consolidate with
  | error e =>
      rw [hcons] at h
      cases h
  | ok s1 =>
      rw [hcons] at h
      simp only [Bind.bind, Except.bind] at h
      obtain ⟨_, _, _, _, hend, _⟩ := consolidate_fields hcons
      split at h
      · cases h
      · rename_i w3 heq3
        split at h
        · cases h
        · rename_i w4 heq4
          have l3 := foldlM_length
            (fun acc x w hx => renderMWStep_length hx) _ _ _ heq3
          have l4 := foldlM_length
            (fun acc x w hx => renderCustomStep_length hx) _ _ _ heq4
          have l5 := foldlM_length
            (fun acc x w hx => renderChirpStep_length hx) _ _ _ h
          rw [l5, l4, l3]
          unfold PulseData.totalTime
          rw [hend]
          split
          · rw [hresCorr_length, fillIntervals_length, List.length_replicate]
          · rw [fillIntervals_length, List.length_replicate]

theorem renderUntrimmed_baseband_last {twoPi : ℚ} {sinf : ℚ → ℚ}
    {s0 : PulseData} {rate : ℚ} {ref : Option RefChannelStates}
    {lo : Option ℚ} {a : List ℚ}
    (hh : s0.hres = false) (hmw : s0.MW_pulse_data = [])
    (hcp : s0.custom_pulse_data = []) (hch : s0.chirp_data = [])
    (hrate : 0 ≤ rate) (hend0 : 0 ≤ s0.end_time)
    (hb : ∀ d ∈ s0.pulse_deltas, ∀ t : ℚ, d.time = .fin t → t ≤ s0.end_time)
    (h : renderUntrimmed twoPi sinf s0 rate ref lo = .ok a) :
    a.getLast? = some 0 := by
  have hlen := renderUntrimmed_ok_length h
  unfold renderUntrimmed at h
  cases hcons : s0.consolidate with
  | error e =>
      rw [hcons] at h
      cases h
  | ok s1 =>
      rw [hcons] at h
      simp only [Bind.bind, Except.bind] at h
      obtain ⟨hMW, hcustom, hchirp, hhres, hend, _⟩ := consolidate_fields hcons
      rw [hMW, hmw, hcustom, hcp, hchirp, hch, hhres, hh] at h
      simp only [List.foldlM_nil, pure, Except.pure, Bool.false_eq_true,
        if_false, Except.ok.injEq] at h
      -- `a` is the filled baseband array
      subst h
      set sr : ℚ := rate * (1/1000000000) with hsr
      have hsrpos : 0 ≤ sr := by
        rw [hsr]
        exact mul_nonneg hrate (by norm_num)
      set B : ℤ := iround (s0.end_time * sr) with hB
      have hBpos : 0 ≤ B := by
        rw [hB]
        exact iround_nonneg (mul_nonneg hend0 hsrpos)
      have hb1 : ∀ d ∈ s1.pulse_deltas, ∀ t : ℚ, d.time = .fin t →
          t ≤ s1.end_time := by
        have := consolidate_time_pred hcons
          (fun pt => ∀ t : ℚ, pt = .fin t → t ≤ s0.end_time)
          (fun d hd => hb d hd)
        intro d hd t ht
        rw [hend]
        exact this d hd t ht
      have htimes : ∀ x ∈ (preProcess s1 (some rate)).times, x ≤ s0.end_time := by
        intro x hx
        have := preProcess_times_le (by rw [hhres, hh]) hb1 (some rate) x hx
        rw [hend] at this
        exact this
      have hbound : ∀ p ∈ (preProcess s1 (some rate)).times.map
          (fun t => iround (t * sr)), p ≤ B := by
        intro p hp
        obtain ⟨t, ht, rfl⟩ := List.mem_map.mp hp
        rw [hB]
        exact iround_mono (mul_le_mul_of_nonneg_right (htimes t ht) hsrpos)
      have htot : s1.totalTime = s0.end_time := by
        unfold PulseData.totalTime
        exact hend
      have hidx : B ≤ ((B + 1).toNat - 1 : ℕ) := by omega
      have hlenfill : (fillIntervals
          (List.replicate (iround (s1.totalTime * sr) + 1).toNat 0)
          ((preProcess s1 (some rate)).times.map (fun t => iround (t * sr)))
          (preProcess s1 (some rate)).ramps
          (preProcess s1 (some rate)).amplitudes
          (preProcess s1 (some rate)).amplitudes_end).length =
          (B + 1).toNat := by
        rw [fillIntervals_length, List.length_replicate, htot, hB]
      have hgd := fillIntervals_getD_high B
        ((preProcess s1 (some rate)).times.map (fun t => iround (t * sr)))
        (List.replicate (iround (s1.totalTime * sr) + 1).toNat 0)
        (preProcess s1 (some rate)).ramps
        (preProcess s1 (some rate)).amplitudes
        (preProcess s1 (some rate)).amplitudes_end
        hbound (((B + 1).toNat - 1 : ℕ)) (by omega)
      rw [List.getLast?_eq_getElem?, hlenfill,
        List.getElem?_eq_getElem (by rw [hlenfill]; omega)]
      rw [List.getD_eq_getElem?_getD,
        List.getElem?_eq_getElem (by rw [hlenfill]; omega),
        Option.getD_some, getD_replicate0] at hgd
      rw [hgd]

theorem scenarioBF_state : pdBlockFrac =
    { pulse_deltas := [⟨.fin 0, 5, 0⟩, ⟨.fin (53/5), -5, 0⟩],
      end_time := 53/5, has_data := true } := by
  unfold pdBlockFrac PulseData.addBlock PulseData.addDelta
    PulseData.updateEndTime PulseData.empty
  norm_num [PulseDelta.isNearZero, eps]

theorem scenarioBF_consolidate : pdBlockFrac.consolidate =
    .ok { pulse_deltas := [⟨.fin 0, 5, 0⟩, ⟨.fin (53/5), -5, 0⟩],
          end_time := 53/5, has_data := true, consolidated := true } := by
  rw [scenarioBF_state]
  unfold PulseData.consolidate
  norm_num
  unfold PulseData.consolidateDeltas
  rw [List.mergeSort_of_sorted (by
    norm_num [List.pairwise_cons, deltaLE, PTime.ble])]
  norm_num [PulseData.mergeDeltas, PulseData.mergeDeltas.go, PulseDelta.add,
    PulseDelta.isNearZero, eps]

theorem scenarioBF_preProcess :
    preProcess
      ({ pulse_deltas := [⟨.fin 0, 5, 0⟩, ⟨.fin (53/5), -5, 0⟩],
         end_time := 53/5, has_data := true, consolidated := true } : PulseData)
      (some 1000000000) =
    ⟨[0, 53/5], [53/5, 0], [5, 0], [5, 0], [0, 0], [0, 0], [0, 0]⟩ := by
  norm_num [preProcess, ptimeVal, cumsum, cumsum.go, List.zipWith,
    List.replicate]

theorem scenarioBF_renderUntrimmed (twoPi : ℚ) (sinf : ℚ → ℚ) :
    renderUntrimmed twoPi sinf pdBlockFrac 1000000000 none none =
      .ok (writeSliceSet (List.replicate 12 0) 0 11 (fun _ => 5)) := by
  have h1 : (iround ((53/5 : ℚ) * (1000000000 * (1/1000000000))) + 1).toNat
      = 12 := by
    norm_num [iround]
    decide
  have h2 : List.map (fun t : ℚ => iround (t * (1000000000 * (1/1000000000))))
      [0, 53/5] = [0, 11] := by
    norm_num [iround]
  have h3 : fillIntervals (List.replicate 12 0) [0, 11] [0, 0]
      [5, 0] [5, 0] =
      writeSliceSet (List.replicate 12 0) 0 11 (fun _ => 5) := by
    rw [fillIntervals_cons, if_pos (by decide : (0 : ℤ) ≠ 11),
      if_neg (by norm_num : ¬((0 : ℚ) ≠ 0))]
    rw [fillIntervals_single]
  unfold renderUntrimmed
  rw [scenarioBF_consolidate]
  simp only [Bind.bind, Except.bind]
  rw [scenarioBF_preProcess]
  dsimp only [PulseData.totalTime]
  rw [h1, h2, h3]
  simp only [Bool.false_eq_true, if_false, List.foldlM_nil, pure, Except.pure]

/-- **C5** (amended) — Rendering a channel of total time `t_tot` at sample
rate `r` allocates `iround(t_tot·r·1e-9) + 1` samples where
`iround(v) = ⌊v + 1/2⌋` is round-half-up — not `⌊t_tot·r⌋ + 1` as stated:
for `t_tot·r` with fractional part ≥ 1/2 the two differ. The last
allocated sample is trimmed from the returned waveform, which therefore
has exactly `iround(t_tot·r·1e-9)` samples; on a baseband channel (no
high-resolution mode, no microwave/custom/chirp elements, deltas at times
within the span) that trimmed boundary sample is always zero. -/
theorem claim_C5 (twoPi : ℚ) (sinf : ℚ → ℚ) (s0 : PulseData) (rate : ℚ)
    (ref : Option RefChannelStates) (lo : Option ℚ) (a : List ℚ)
    (hr : renderUntrimmed twoPi sinf s0 rate ref lo = .ok a) :
    (a.length = (iround (s0.end_time * (rate * (1/1000000000))) + 1).toNat ∧
     render twoPi sinf s0 rate ref lo = .ok a.dropLast ∧
     a.dropLast.length = a.length - 1) ∧
    (s0.hres = false → s0.MW_pulse_data = [] → s0.custom_pulse_data = [] →
     s0.chirp_data = [] → 0 ≤ rate → 0 ≤ s0.end_time →
     (∀ d ∈ s0.pulse_deltas, ∀ t : ℚ, d.time = .fin t → t ≤ s0.end_time) →
     a.getLast? = some 0) := by
  refine ⟨⟨renderUntrimmed_ok_length hr, ?_, List.length_dropLast a⟩,
    fun hh hmw hcp hch hrate hend0 hb =>
      renderUntrimmed_baseband_last hh hmw hcp hch hrate hend0 hb hr⟩
  unfold render
  rw [hr]
  rfl

/-- Witness for C5: at `pdBlockFrac` (a 5 mV block over `[0, 10.6)` ns)
rendered at 1 GSa/s the untrimmed array has
`iround(10.6) + 1 = 12` samples and its last sample is zero. -/
theorem claim_C5_witness :
    (writeSliceSet (List.replicate 12 (0 : ℚ)) 0 11 (fun _ => 5)).length =
      (iround (pdBlockFrac.end_time * (1000000000 * (1/1000000000)))
        + 1).toNat ∧
    (writeSliceSet (List.replicate 12 (0 : ℚ)) 0 11
      (fun _ => 5)).getLast? = some 0 := by
  have h := claim_C5 0 (fun _ => 0) pdBlockFrac 1000000000 none none _
    (scenarioBF_renderUntrimmed 0 (fun _ => 0))
  refine ⟨h.1.1, h.2 (by rw [scenarioBF_state]) (by rw [scenarioBF_state])
    (by rw [scenarioBF_state]) (by rw [scenarioBF_state]) (by norm_num)
    (by rw [scenarioBF_state]; norm_num) ?_⟩
  rw [scenarioBF_state]
  intro d hd t ht
  rcases List.mem_cons.mp hd with rfl | hd2
  · injection ht with ht
    rw [← ht]
    norm_num
  · rw [List.mem_singleton] at hd2
    subst hd2
    injection ht with ht
    rw [← ht]

/-- Counterexample to C5 as stated: for a block of 5 mV over `[0, 10.6)` ns
rendered at 1 GSa/s, the returned waveform has 11 samples while
`⌊t_tot·r⌋ = ⌊10.6⌋ = 10` — the allocation uses round-half-up, not floor,
so the spec's sample count is off by one whenever the fractional part of
`t_tot·r` is at least 1/2. -/
theorem claim_C5_counterexample :
    render 0 (fun _ => 0) pdBlockFrac 1000000000 none none =
      .ok ((writeSliceSet (List.replicate 12 (0 : ℚ)) 0 11
        (fun _ => 5)).dropLast) ∧
    ((writeSliceSet (List.replicate 12 (0 : ℚ)) 0 11
      (fun _ => 5)).dropLast).length = 11 ∧
    Int.floor (pdBlockFrac.end_time * (1000000000 * ((1 : ℚ)/1000000000)))
      = 10 ∧
    (11 : ℤ) ≠ 10 := by
  refine ⟨?_, ?_, ?_, by decide⟩
  · unfold render
    rw [scenarioBF_renderUntrimmed]
    rfl
  · simp only [List.length_dropLast, length_writeSliceSet,
      List.length_replicate]
  · rw [scenarioBF_state]
    norm_num

/-- **C6** — When the interpolation planner cuts a sine element at a time
`t` strictly inside its span, the element splits in two at `t`: the first
keeps the original start and phase offset and stops at `t`; the second
spans `[t, stop]` with phase offset incremented by
`2π·frequency·(t-start)·1e-9` (elapsed time in seconds), preserving the
sine's phase across the cut. -/
theorem claim_C6 (twoPi t : ℚ) (p : IQdataSingle)
    (h1 : p.start < t) (h2 : t < p.stop) :
    cutSines twoPi t [p] = .ok ([{ p with stop := t }],
      [{ start := t, stop := p.stop, amplitude := p.amplitude,
         frequency := p.frequency,
         phase_offset := p.phase_offset +
           p.frequency * twoPi * (t - p.start) * (1/1000000000),
         envelope := none, ref_channel := none, coherent_pulsing := false }],
      [{ start := t, stop := p.stop, amplitude := p.amplitude,
         frequency := p.frequency,
         phase_offset := p.phase_offset +
           p.frequency * twoPi * (t - p.start) * (1/1000000000),
         envelope := none, ref_channel := none, coherent_pulsing := false }]) := by
  have hng : ¬ (p.start > t) := not_lt.mpr (le_of_lt h1)
  have hne : ¬ (p.start = t) := ne_of_lt h1
  unfold cutSines
  rw [if_neg hng, if_neg hne, if_pos h2]
  rfl

/-- Witness for C6: cutting the 1 MHz sine `[0, 10]` at `t = 4` (with
`2π` instantiated to 6) yields the two sub-pulses with phase offset
`6·10⁶·4·10⁻⁹ = 3/125` on the second. -/
theorem claim_C6_witness :
    (0 : ℚ) < 4 ∧ (4 : ℚ) < 10 ∧
    cutSines 6 4 [⟨0, 10, 1, 1000000, 0, none, none, false⟩] =
      .ok ([⟨0, 4, 1, 1000000, 0, none, none, false⟩],
           [⟨4, 10, 1, 1000000, 3/125, none, none, false⟩],
           [⟨4, 10, 1, 1000000, 3/125, none, none, false⟩]) := by
  refine ⟨by norm_num, by norm_num, ?_⟩
  rw [claim_C6 6 4 ⟨0, 10, 1, 1000000, 0, none, none, false⟩
    (by norm_num) (by norm_num)]
  norm_num

end PulseLib
